import Mathlib

/-!
Verification of the wordnet-editor mutation engine against its
specification.  The Python sources under src/wordnet_editor are shallowly
embedded: the SQLite tables become lists of row structures, each public
mutation method becomes a function from the store to a pair of the
resulting store and an optional raised error (mirroring partial effects of
a method that raises midway), and the SQL statements become the
corresponding list operations.  Rowids are drawn from a single running
counter, matching SQLite's monotone rowid allocation on these tables.
-/

namespace WnEditor

/-- Error kinds surfaced at the public boundary (exceptions.py). -/
inductive Err where
  | validation (msg : String)
  | notFound (msg : String)
  | duplicate (msg : String)
  | conflict (msg : String)
  | relationErr (msg : String)
deriving DecidableEq, Repr

/-- A row of the lexicons table (db.py DDL). -/
structure LexRow where
  rowid : Nat
  specifier : String
  id : String
  label : String
  language : String
  email : String
  license : String
  version : String
  url : Option String
  citation : Option String
  logo : Option String
  metadata : Option String
  modified : Bool
deriving DecidableEq, Repr

/-- A row of the synsets table. -/
structure SynsetRow where
  rowid : Nat
  id : String
  lex : Nat
  ili : Option Nat
  pos : String
  metadata : Option String
deriving DecidableEq, Repr

/-- A row of the entries table. -/
structure EntryRow where
  rowid : Nat
  id : String
  lex : Nat
  pos : String
  metadata : Option String
deriving DecidableEq, Repr

/-- A row of the senses table. -/
structure SenseRow where
  rowid : Nat
  id : String
  lex : Nat
  entry : Nat
  entryRank : Nat
  synset : Nat
  synsetRank : Nat
  metadata : Option String
deriving DecidableEq, Repr

/-- A row of one of the three relation tables.  The relation_types lookup
table maps each type string to a rowid bijectively (get_or_create), so the
row stores the type string directly; the separate relationTypes list of
the store keeps track of which strings have been interned, since
remove_synset_relation returns early when the type string was never
interned. -/
structure RelRow where
  rowid : Nat
  lex : Nat
  src : Nat
  tgt : Nat
  typ : String
  meta : Option String
deriving DecidableEq, Repr

/-- A row of the definitions table (fields not read by the modelled
operations are omitted). -/
structure DefRow where
  rowid : Nat
  lex : Nat
  synset : Nat
  text : Option String
deriving DecidableEq, Repr

/-- A row of the synset_examples table. -/
structure ExRow where
  rowid : Nat
  lex : Nat
  synset : Nat
  text : Option String
deriving DecidableEq, Repr

/-- A row of the proposed_ilis table. -/
structure PropIliRow where
  rowid : Nat
  synset : Nat
  text : String
  meta : Option String
deriving DecidableEq, Repr

/-- A row of the ilis table. -/
structure IliRow where
  rowid : Nat
  id : String
  status : String
deriving DecidableEq, Repr

/-- A row of the edit_history table (history.py; the wall-clock timestamp
column is not modelled). -/
structure HistRow where
  entityType : String
  entityId : String
  field : Option String
  op : String
  oldVal : Option String
  newVal : Option String
deriving DecidableEq, Repr

/-- The persistent store: one list per table touched by the modelled
operations, plus the rowid counter. -/
structure Store where
  lexicons : List LexRow
  relationTypes : List String
  ilis : List IliRow
  proposedIlis : List PropIliRow
  synsets : List SynsetRow
  unlexSynsets : List Nat
  synsetRelations : List RelRow
  definitions : List DefRow
  synsetExamples : List ExRow
  entries : List EntryRow
  senses : List SenseRow
  unlexSenses : List Nat
  senseRelations : List RelRow
  senseSynsetRelations : List RelRow
  adjpositions : List (Nat × String)
  editHistory : List HistRow
  nextRowid : Nat
deriving DecidableEq, Repr

/-- The empty store. -/
def Store.empty : Store :=
  ⟨[], [], [], [], [], [], [], [], [], [], [], [], [], [], [], [], 1⟩

/-- db.get_synset_row: first synsets row with the given business id. -/
def getSynsetRow (st : Store) (sid : String) : Option SynsetRow :=
  st.synsets.find? (fun r => r.id == sid)

/-- db.get_entry_row. -/
def getEntryRow (st : Store) (eid : String) : Option EntryRow :=
  st.entries.find? (fun r => r.id == eid)

/-- db.get_sense_row. -/
def getSenseRow (st : Store) (sid : String) : Option SenseRow :=
  st.senses.find? (fun r => r.id == sid)

/-- db.get_lexicon_rowid: specifier format first, bare id as fallback. -/
def getLexiconRowid (st : Store) (lid : String) : Option Nat :=
  match st.lexicons.find? (fun r => r.specifier == lid) with
  | some r => some r.rowid
  | none => (st.lexicons.find? (fun r => r.id == lid)).map (fun r => r.rowid)

/-- history.record_create. -/
def recordCreate (st : Store) (ty eid : String) (newVal : Option String) : Store :=
  { st with editHistory := st.editHistory ++ [⟨ty, eid, none, "CREATE", none, newVal⟩] }

/-- history.record_update. -/
def recordUpdate (st : Store) (ty eid fieldName : String)
    (oldVal newVal : Option String) : Store :=
  { st with editHistory :=
      st.editHistory ++ [⟨ty, eid, some fieldName, "UPDATE", oldVal, newVal⟩] }

/-- history.record_delete. -/
def recordDelete (st : Store) (ty eid : String) (oldVal : Option String) : Store :=
  { st with editHistory := st.editHistory ++ [⟨ty, eid, none, "DELETE", oldVal, none⟩] }

/-- relations.SYNSET_RELATION_INVERSES (relations.py). -/
def synsetRelationInverses : List (String × String) :=
  [("hypernym", "hyponym"), ("hyponym", "hypernym"),
   ("instance_hypernym", "instance_hyponym"),
   ("instance_hyponym", "instance_hypernym"),
   ("meronym", "holonym"), ("holonym", "meronym"),
   ("mero_location", "holo_location"), ("holo_location", "mero_location"),
   ("mero_member", "holo_member"), ("holo_member", "mero_member"),
   ("mero_part", "holo_part"), ("holo_part", "mero_part"),
   ("mero_portion", "holo_portion"), ("holo_portion", "mero_portion"),
   ("mero_substance", "holo_substance"), ("holo_substance", "mero_substance"),
   ("state_of", "be_in_state"), ("be_in_state", "state_of"),
   ("causes", "is_caused_by"), ("is_caused_by", "causes"),
   ("subevent", "is_subevent_of"), ("is_subevent_of", "subevent"),
   ("manner_of", "in_manner"), ("in_manner", "manner_of"),
   ("restricts", "restricted_by"), ("restricted_by", "restricts"),
   ("classifies", "classified_by"), ("classified_by", "classifies"),
   ("entails", "is_entailed_by"), ("is_entailed_by", "entails"),
   ("domain_topic", "has_domain_topic"), ("has_domain_topic", "domain_topic"),
   ("domain_region", "has_domain_region"),
   ("has_domain_region", "domain_region"),
   ("exemplifies", "is_exemplified_by"),
   ("is_exemplified_by", "exemplifies"),
   ("role", "involved"), ("involved", "role"),
   ("agent", "involved_agent"), ("involved_agent", "agent"),
   ("patient", "involved_patient"), ("involved_patient", "patient"),
   ("result", "involved_result"), ("involved_result", "result"),
   ("instrument", "involved_instrument"),
   ("involved_instrument", "instrument"),
   ("location", "involved_location"), ("involved_location", "location"),
   ("direction", "involved_direction"), ("involved_direction", "direction"),
   ("target_direction", "involved_target_direction"),
   ("involved_target_direction", "target_direction"),
   ("source_direction", "involved_source_direction"),
   ("involved_source_direction", "source_direction"),
   ("co_agent_patient", "co_patient_agent"),
   ("co_patient_agent", "co_agent_patient"),
   ("co_agent_instrument", "co_instrument_agent"),
   ("co_instrument_agent", "co_agent_instrument"),
   ("co_agent_result", "co_result_agent"),
   ("co_result_agent", "co_agent_result"),
   ("co_patient_instrument", "co_instrument_patient"),
   ("co_instrument_patient", "co_patient_instrument"),
   ("co_result_instrument", "co_instrument_result"),
   ("co_instrument_result", "co_result_instrument"),
   ("feminine", "has_feminine"), ("has_feminine", "feminine"),
   ("masculine", "has_masculine"), ("has_masculine", "masculine"),
   ("young", "has_young"), ("has_young", "young"),
   ("diminutive", "has_diminutive"), ("has_diminutive", "diminutive"),
   ("augmentative", "has_augmentative"),
   ("has_augmentative", "augmentative"),
   ("antonym", "antonym"), ("eq_synonym", "eq_synonym"),
   ("similar", "similar"), ("attribute", "attribute"),
   ("co_role", "co_role"), ("ir_synonym", "ir_synonym"),
   ("anto_gradable", "anto_gradable"), ("anto_simple", "anto_simple"),
   ("anto_converse", "anto_converse")]

/-- relations.SYNSET_RELATION_INVERSES.get. -/
def synsetInverse (t : String) : Option String :=
  (synsetRelationInverses.find? (fun p => p.1 == t)).map (fun p => p.2)

/-- relations.SENSE_RELATION_INVERSES (relations.py). -/
def senseRelationInverses : List (String × String) :=
  [("agent", "involved_agent"), ("involved_agent", "agent"),
   ("patient", "involved_patient"), ("involved_patient", "patient"),
   ("result", "involved_result"), ("involved_result", "result"),
   ("instrument", "involved_instrument"),
   ("involved_instrument", "instrument"),
   ("location", "involved_location"), ("involved_location", "location"),
   ("direction", "involved_direction"), ("involved_direction", "direction"),
   ("target_direction", "involved_target_direction"),
   ("involved_target_direction", "target_direction"),
   ("source_direction", "involved_source_direction"),
   ("involved_source_direction", "source_direction"),
   ("domain_topic", "has_domain_topic"), ("has_domain_topic", "domain_topic"),
   ("domain_region", "has_domain_region"),
   ("has_domain_region", "domain_region"),
   ("exemplifies", "is_exemplified_by"),
   ("is_exemplified_by", "exemplifies"),
   ("feminine", "has_feminine"), ("has_feminine", "feminine"),
   ("masculine", "has_masculine"), ("has_masculine", "masculine"),
   ("young", "has_young"), ("has_young", "young"),
   ("diminutive", "has_diminutive"), ("has_diminutive", "diminutive"),
   ("augmentative", "has_augmentative"),
   ("has_augmentative", "augmentative"),
   ("metaphor", "has_metaphor"), ("has_metaphor", "metaphor"),
   ("metonym", "has_metonym"), ("has_metonym", "metonym"),
   ("simple_aspect_ip", "simple_aspect_pi"),
   ("simple_aspect_pi", "simple_aspect_ip"),
   ("secondary_aspect_ip", "secondary_aspect_pi"),
   ("secondary_aspect_pi", "secondary_aspect_ip"),
   ("co_agent_patient", "co_patient_agent"),
   ("co_patient_agent", "co_agent_patient"),
   ("co_agent_instrument", "co_instrument_agent"),
   ("co_instrument_agent", "co_agent_instrument"),
   ("co_agent_result", "co_result_agent"),
   ("co_result_agent", "co_agent_result"),
   ("co_patient_instrument", "co_instrument_patient"),
   ("co_instrument_patient", "co_patient_instrument"),
   ("co_result_instrument", "co_instrument_result"),
   ("co_instrument_result", "co_result_instrument"),
   ("antonym", "antonym"), ("similar", "similar"),
   ("derivation", "derivation"), ("anto_gradable", "anto_gradable"),
   ("anto_simple", "anto_simple"), ("anto_converse", "anto_converse")]

/-- relations.SENSE_RELATION_INVERSES.get. -/
def senseInverse (t : String) : Option String :=
  (senseRelationInverses.find? (fun p => p.1 == t)).map (fun p => p.2)

/-- models.SynsetRelationType values (models.py). -/
def synsetRelationKinds : List String :=
  ["agent", "also", "antonym", "anto_converse", "anto_gradable",
   "anto_simple", "attribute", "augmentative", "be_in_state", "causes",
   "classified_by", "classifies", "co_agent_instrument", "co_agent_patient",
   "co_agent_result", "co_instrument_agent", "co_instrument_patient",
   "co_instrument_result", "co_patient_agent", "co_patient_instrument",
   "co_result_agent", "co_result_instrument", "co_role", "diminutive",
   "direction", "domain_region", "domain_topic", "entails", "eq_synonym",
   "exemplifies", "feminine", "has_augmentative", "has_diminutive",
   "has_domain_region", "has_domain_topic", "has_feminine", "has_masculine",
   "has_young", "holo_location", "holo_member", "holo_part", "holo_portion",
   "holo_substance", "holonym", "hypernym", "hyponym", "in_manner",
   "instance_hypernym", "instance_hyponym", "instrument", "involved",
   "involved_agent", "involved_direction", "involved_instrument",
   "involved_location", "involved_patient", "involved_result",
   "involved_source_direction", "involved_target_direction", "ir_synonym",
   "is_caused_by", "is_entailed_by", "is_exemplified_by", "is_subevent_of",
   "location", "manner_of", "masculine", "mero_location", "mero_member",
   "mero_part", "mero_portion", "mero_substance", "meronym", "other",
   "patient", "restricted_by", "restricts", "result", "role", "similar",
   "source_direction", "state_of", "subevent", "target_direction", "young"]

/-- models.SenseRelationType values. -/
def senseRelationKinds : List String :=
  ["agent", "also", "antonym", "anto_converse", "anto_gradable",
   "anto_simple", "augmentative", "body_part", "by_means_of", "derivation",
   "destination", "diminutive", "domain_region", "domain_topic", "event",
   "exemplifies", "feminine", "has_augmentative", "has_diminutive",
   "has_domain_region", "has_domain_topic", "has_feminine", "has_masculine",
   "has_metaphor", "has_metonym", "has_young", "instrument",
   "is_exemplified_by", "location", "masculine", "material", "metaphor",
   "metonym", "other", "participle", "pertainym", "property", "result",
   "secondary_aspect_ip", "secondary_aspect_pi", "similar",
   "simple_aspect_ip", "simple_aspect_pi", "state", "undergoer", "uses",
   "vehicle", "young"]

/-- relations.is_valid_synset_relation. -/
def isValidSynsetRelation (t : String) : Bool :=
  synsetRelationKinds.contains t

/-- relations.is_valid_sense_relation. -/
def isValidSenseRelation (t : String) : Bool :=
  senseRelationKinds.contains t

/-- db.get_or_create_relation_type: intern a relation type string. -/
def getOrCreateRelationType (st : Store) (t : String) : Store :=
  if st.relationTypes.contains t then st
  else { st with relationTypes := st.relationTypes ++ [t] }

/-- INSERT into synset_relations with the UNIQUE (source, target, type)
constraint violation suppressed (so a duplicate triple leaves the table
unchanged). -/
def insertSynsetRelation (st : Store) (lex s t : Nat) (typ : String)
    (meta : Option String) : Store :=
  if st.synsetRelations.any (fun r => r.src == s && r.tgt == t && r.typ == typ) then st
  else { st with
    synsetRelations := st.synsetRelations ++ [⟨st.nextRowid, lex, s, t, typ, meta⟩],
    nextRowid := st.nextRowid + 1 }

/-- INSERT into sense_relations with duplicate triples suppressed. -/
def insertSenseRelation (st : Store) (lex s t : Nat) (typ : String)
    (meta : Option String) : Store :=
  if st.senseRelations.any (fun r => r.src == s && r.tgt == t && r.typ == typ) then st
  else { st with
    senseRelations := st.senseRelations ++ [⟨st.nextRowid, lex, s, t, typ, meta⟩],
    nextRowid := st.nextRowid + 1 }

/-- DELETE FROM synset_relations WHERE source, target and type match. -/
def deleteSynsetRelationRows (st : Store) (s t : Nat) (typ : String) : Store :=
  { st with synsetRelations :=
      st.synsetRelations.filter (fun r => !(r.src == s && r.tgt == t && r.typ == typ)) }

/-- DELETE FROM sense_relations WHERE source, target and type match. -/
def deleteSenseRelationRows (st : Store) (s t : Nat) (typ : String) : Store :=
  { st with senseRelations :=
      st.senseRelations.filter (fun r => !(r.src == s && r.tgt == t && r.typ == typ)) }

/-- editor.add_synset_relation. -/
def addSynsetRelation (st : Store) (sourceId relType targetId : String)
    (autoInverse : Bool) (meta : Option String) : Store × Option Err :=
  if !(isValidSynsetRelation relType) then
    (st, some (.validation ("Invalid synset relation type: " ++ relType)))
  else if sourceId == targetId then
    (st, some (.validation ("Self-referential relations are not allowed: " ++ sourceId)))
  else
    match getSynsetRow st sourceId with
    | none => (st, some (.notFound ("Synset not found: " ++ sourceId)))
    | some srcRow =>
      match getSynsetRow st targetId with
      | none => (st, some (.notFound ("Synset not found: " ++ targetId)))
      | some tgtRow =>
        let st1 := getOrCreateRelationType st relType
        let st2 := insertSynsetRelation st1 srcRow.lex srcRow.rowid tgtRow.rowid relType meta
        let st3 := recordCreate st2 "relation"
          (sourceId ++ "->" ++ relType ++ "->" ++ targetId) none
        let st4 :=
          if autoInverse then
            match synsetInverse relType with
            | some inv =>
              let stA := getOrCreateRelationType st3 inv
              insertSynsetRelation stA tgtRow.lex tgtRow.rowid srcRow.rowid inv none
            | none => st3
          else st3
        (st4, none)

/-- editor.remove_synset_relation. -/
def removeSynsetRelation (st : Store) (sourceId relType targetId : String)
    (autoInverse : Bool) : Store × Option Err :=
  match getSynsetRow st sourceId, getSynsetRow st targetId with
  | some srcRow, some tgtRow =>
    if !(st.relationTypes.contains relType) then (st, none)
    else
      let st1 := deleteSynsetRelationRows st srcRow.rowid tgtRow.rowid relType
      let st2 := recordDelete st1 "relation"
        (sourceId ++ "->" ++ relType ++ "->" ++ targetId) none
      let st3 :=
        if autoInverse then
          match synsetInverse relType with
          | some inv =>
            if st2.relationTypes.contains inv then
              deleteSynsetRelationRows st2 tgtRow.rowid srcRow.rowid inv
            else st2
          | none => st2
        else st2
      (st3, none)
  | _, _ => (st, none)

/-- editor.add_sense_relation. -/
def addSenseRelation (st : Store) (sourceId relType targetId : String)
    (autoInverse : Bool) (meta : Option String) : Store × Option Err :=
  if !(isValidSenseRelation relType) then
    (st, some (.validation ("Invalid sense relation type: " ++ relType)))
  else if sourceId == targetId then
    (st, some (.validation ("Self-referential relations are not allowed: " ++ sourceId)))
  else
    match getSenseRow st sourceId with
    | none => (st, some (.notFound ("Sense not found: " ++ sourceId)))
    | some srcRow =>
      match getSenseRow st targetId with
      | none => (st, some (.notFound ("Sense not found: " ++ targetId)))
      | some tgtRow =>
        let st1 := getOrCreateRelationType st relType
        let st2 := insertSenseRelation st1 srcRow.lex srcRow.rowid tgtRow.rowid relType meta
        let st3 := recordCreate st2 "relation"
          (sourceId ++ "->" ++ relType ++ "->" ++ targetId) none
        let st4 :=
          if autoInverse then
            match senseInverse relType with
            | some inv =>
              let stA := getOrCreateRelationType st3 inv
              insertSenseRelation stA tgtRow.lex tgtRow.rowid srcRow.rowid inv none
            | none => st3
          else st3
        (st4, none)

/-- editor.remove_sense_relation. -/
def removeSenseRelation (st : Store) (sourceId relType targetId : String)
    (autoInverse : Bool) : Store × Option Err :=
  match getSenseRow st sourceId, getSenseRow st targetId with
  | some srcRow, some tgtRow =>
    if !(st.relationTypes.contains relType) then (st, none)
    else
      let st1 := deleteSenseRelationRows st srcRow.rowid tgtRow.rowid relType
      let st2 :=
        if autoInverse then
          match senseInverse relType with
          | some inv =>
            if st1.relationTypes.contains inv then
              deleteSenseRelationRows st1 tgtRow.rowid srcRow.rowid inv
            else st1
          | none => st1
        else st1
      (st2, none)
  | _, _ => (st, none)

/-- A relation value object as returned by get_synset_relations. -/
structure RelModel where
  sourceId : String
  targetId : String
  relType : String
  meta : Option String
deriving DecidableEq, Repr

/-- editor.get_synset_relations: outgoing relations of a synset, joined
back to synset business ids. -/
def getSynsetRelations (st : Store) (sid : String) (rt : Option String) :
    Except Err (List RelModel) :=
  match getSynsetRow st sid with
  | none => .error (.notFound ("Synset not found: " ++ sid))
  | some row =>
    .ok ((st.synsetRelations.filter
        (fun r => r.src == row.rowid &&
          (match rt with | some t => r.typ == t | none => true))).filterMap
      (fun r =>
        match st.synsets.find? (fun a => a.rowid == r.src),
              st.synsets.find? (fun b => b.rowid == r.tgt) with
        | some a, some b => some ⟨a.id, b.id, r.typ, r.meta⟩
        | _, _ => none))

/-- editor.create_lexicon.  The INSERT is guarded only by the DDL
constraints UNIQUE (id, version) and UNIQUE (specifier); an
IntegrityError from either is mapped to DuplicateEntityError.  The
metadata and history JSON payloads are abstracted to plain strings. -/
def createLexicon (st : Store) (id label language email license version : String)
    (url citation logo metadata : Option String) : Store × Option Err :=
  let specifier := id ++ ":" ++ version
  if st.lexicons.any (fun r =>
      (r.id == id && r.version == version) || r.specifier == specifier) then
    (st, some (.duplicate ("Lexicon with id=" ++ id ++ " version=" ++ version
      ++ " already exists")))
  else
    let st1 := { st with
      lexicons := st.lexicons ++ [⟨st.nextRowid, specifier, id, label, language,
        email, license, version, url, citation, logo, metadata, false⟩],
      nextRowid := st.nextRowid + 1 }
    (recordCreate st1 "lexicon" id (some ("id=" ++ id ++ ",label=" ++ label)), none)

/-- db.get_or_create_ili: returns the store and the ili rowid. -/
def getOrCreateIli (st : Store) (iliId : String) : Store × Nat :=
  match st.ilis.find? (fun r => r.id == iliId) with
  | some r => (st, r.rowid)
  | none =>
    ({ st with
        ilis := st.ilis ++ [⟨st.nextRowid, iliId, "presupposed"⟩],
        nextRowid := st.nextRowid + 1 }, st.nextRowid)

/-- The closed POS set _VALID_POS (editor.py). -/
def validPos : List String :=
  ["n", "v", "a", "r", "s", "t", "c", "p", "x", "u"]

/-- SQL LIKE pattern matching over character lists, with backslash as the
ESCAPE character: percent matches any sequence, underscore any single
character, and a backslash makes the following character literal.
Modelled case-sensitively; in _generate_entry_id the candidate set is
re-filtered by a case-sensitive startswith double check, so the
case-insensitivity of SQLite's ASCII LIKE does not affect the result. -/
def likeChars : List Char → List Char → Bool
  | [], s => s.isEmpty
  | c :: p, s =>
    if c = '%' then (List.range (s.length + 1)).any (fun k => likeChars p (s.drop k))
    else if c = '_' then
      match s with
      | [] => false
      | _ :: t => likeChars p t
    else if c = '\\' then
      match p with
      | [] => false
      | e :: p' =>
        match s with
        | [] => false
        | d :: t => d == e && likeChars p' t
    else
      match s with
      | [] => false
      | d :: t => d == c && likeChars p t

/-- One character of the LIKE-escaping in _generate_entry_id: backslash,
underscore and percent receive a backslash escape (the chained
str.replace calls of the source amount to this character-wise map, as
the backslashes are doubled first). -/
def escapeLikeChar (c : Char) : List Char :=
  if c == '\\' || c == '_' || c == '%' then ['\\', c] else [c]

/-- The escaped base id used in the LIKE pattern of _generate_entry_id. -/
def escapeLike (s : String) : List Char :=
  (s.data.map escapeLikeChar).flatten

/-- Lemma normalization in _generate_entry_id: lowercase, spaces to
underscores, strip characters outside word characters and the dash,
with fallback "entry". -/
def normalizeLemma (lemmaText : String) : String :=
  let lowered := lemmaText.data.map
    (fun c => if c = ' ' then '_' else c.toLower)
  let s := String.mk (lowered.filter (fun c => c.isAlphanum || c == '_' || c == '-'))
  if s == "" then "entry" else s

/-- Python str.isdigit for ASCII digit strings. -/
def digitsOnly (s : String) : Bool :=
  !(s == "") && s.data.all (fun c => c.isDigit)

/-- Numeric value of a digit string. -/
def digitsToNat (s : String) : Nat :=
  s.data.foldl (fun acc c => acc * 10 + (c.toNat - 48)) 0

/-- The while loop of _generate_entry_id: starting from n, walk upwards
past members of the suffix list (fuel-bounded; the fuel passed is always
sufficient). -/
def firstFreeAux : Nat → List Nat → Nat → Nat
  | 0, _, n => n
  | fuel + 1, s, n => if s.contains n then firstFreeAux fuel s (n + 1) else n

/-- The integer suffixes of existing sibling entry ids, as collected by
_generate_entry_id: LIKE-matching rows, re-checked with startswith, with
an all-digit remainder after "base-". -/
def entrySuffixes (st : Store) (baseId : String) : List Nat :=
  let pat := escapeLike baseId ++ ['-', '%']
  let rows := st.entries.filter (fun r => likeChars pat r.id.data)
  (rows.filter (fun r => (baseId ++ "-").data.isPrefixOf r.id.data)).filterMap
    (fun r =>
      let suffix := r.id.drop (baseId.length + 1)
      if digitsOnly suffix then some (digitsToNat suffix) else none)

/-- editor._generate_entry_id. -/
def generateEntryId (st : Store) (lexiconId lemmaText pos : String) : String :=
  let normalized := normalizeLemma lemmaText
  let baseId := lexiconId ++ "-" ++ normalized ++ "-" ++ pos
  if (getEntryRow st baseId).isNone then baseId
  else
    let suffixes := entrySuffixes st baseId
    let n := firstFreeAux (suffixes.length + 1) suffixes 2
    baseId ++ "-" ++ toString n

/-- Zero-padding to eight digits for auto-generated synset ids. -/
def pad8 (n : Nat) : String :=
  let s := toString n
  String.mk (List.replicate (8 - s.length) '0') ++ s

/-- SQLite CAST (text AS INTEGER) on the non-negative strings that occur
here: value of the leading digit run, zero when there is none. -/
def sqliteCastNat (s : String) : Nat :=
  digitsToNat (String.mk (s.data.takeWhile (fun c => c.isDigit)))

/-- editor._generate_synset_id: one more than the largest 8-digit counter
among this lexicon's synsets matching the unescaped LIKE pattern. -/
def generateSynsetId (st : Store) (lexiconId : String) (lexRowid : Nat)
    (pos : String) : String :=
  let pre := lexiconId ++ "-"
  let pat := pre.data ++ List.replicate 8 '_' ++ ['-', '%']
  let vals := (st.synsets.filter
      (fun r => r.lex == lexRowid && likeChars pat r.id.data)).map
    (fun r => sqliteCastNat (String.mk ((r.id.data.drop pre.length).take 8)))
  let counter := vals.foldl Nat.max 0 + 1
  pre ++ pad8 counter ++ "-" ++ pos

/-- editor.create_synset. -/
def createSynset (st : Store) (lexiconId pos defn : String) (id? : Option String)
    (ili : Option String) (iliDefn : Option String) (lexicalized : Bool)
    (metadata : Option String) : Store × Option Err :=
  if !(validPos.contains pos) then
    (st, some (.validation ("Invalid POS: " ++ pos)))
  else
    match getLexiconRowid st lexiconId with
    | none => (st, some (.notFound ("Lexicon not found: " ++ lexiconId)))
    | some lexRowid =>
      let id := match id? with
        | none => generateSynsetId st lexiconId lexRowid pos
        | some i => i
      if id?.isSome && !(id.startsWith (lexiconId ++ "-")) then
        (st, some (.validation ("ID must start with lexicon prefix: " ++ lexiconId ++ "-")))
      else if (getSynsetRow st id).isSome then
        (st, some (.duplicate ("Synset already exists: " ++ id)))
      else
        let withIli : Store × Option Nat :=
          match ili with
          | some v =>
            if v != "in" then
              let p := getOrCreateIli st v
              (p.1, some p.2)
            else (st, none)
          | none => (st, none)
        let stI := withIli.1
        let iliRowid := withIli.2
        if ili == some "in" && iliDefn == none then
          (stI, some (.validation "ili_definition is required when ili is in"))
        else if ili == some "in" && (iliDefn.getD "").length < 20 then
          (stI, some (.validation "ILI definition must be at least 20 characters"))
        else
          let synsetRowid := stI.nextRowid
          let st1 : Store := { stI with
            synsets := stI.synsets ++ [⟨synsetRowid, id, lexRowid, iliRowid, pos, metadata⟩],
            nextRowid := stI.nextRowid + 1 }
          let st2 : Store := if ili == some "in" then
              { st1 with
                proposedIlis := st1.proposedIlis ++
                  [⟨st1.nextRowid, synsetRowid, iliDefn.getD "", none⟩],
                nextRowid := st1.nextRowid + 1 }
            else st1
          let st3 := if !lexicalized then
              { st2 with unlexSynsets := st2.unlexSynsets ++ [synsetRowid] }
            else st2
          let st4 : Store := { st3 with
            definitions := st3.definitions ++ [⟨st3.nextRowid, lexRowid, synsetRowid, some defn⟩],
            nextRowid := st3.nextRowid + 1 }
          (recordCreate st4 "synset" id (some ("pos=" ++ pos ++ ",definition=" ++ defn)), none)

/-- editor._generate_sense_id: entry id, the synset id's local part after
the first dash, and the two-digit entry rank. -/
def generateSenseId (entryId synsetId : String) (position : Nat) : String :=
  let localPart :=
    match synsetId.data.dropWhile (fun c => c != '-') with
    | [] => synsetId
    | _ :: rest => String.mk rest
  let p := toString position
  entryId ++ "-" ++ localPart ++ "-" ++
    (if p.length < 2 then String.mk (List.replicate (2 - p.length) '0') ++ p else p)

/-- editor.add_sense. -/
def addSense (st : Store) (entryId synsetId : String) (id? : Option String)
    (lexicalized : Bool) (adjposition : Option String)
    (metadata : Option String) : Store × Option Err :=
  match getEntryRow st entryId with
  | none => (st, some (.notFound ("Entry not found: " ++ entryId)))
  | some entryRow =>
    match getSynsetRow st synsetId with
    | none => (st, some (.notFound ("Synset not found: " ++ synsetId)))
    | some synsetRow =>
      if st.senses.any (fun r => r.entry == entryRow.rowid && r.synset == synsetRow.rowid) then
        (st, some (.duplicate ("Entry " ++ entryId ++ " already has a sense for synset " ++ synsetId)))
      else
        let entryRank := ((st.senses.filter (fun r => r.entry == entryRow.rowid)).map
          (fun r => r.entryRank)).foldl Nat.max 0 + 1
        let synsetRank := ((st.senses.filter (fun r => r.synset == synsetRow.rowid)).map
          (fun r => r.synsetRank)).foldl Nat.max 0 + 1
        let id := match id? with
          | none => generateSenseId entryId synsetId entryRank
          | some i => i
        let lexOk :=
          match id?, st.lexicons.find? (fun l => l.rowid == entryRow.lex) with
          | some i, some lexRow => i.startsWith (lexRow.id ++ "-")
          | _, _ => true
        if !lexOk then
          (st, some (.validation "ID must start with lexicon prefix"))
        else if (getSenseRow st id).isSome then
          (st, some (.duplicate ("Sense already exists: " ++ id)))
        else
          let senseRowid := st.nextRowid
          let st1 : Store := { st with
            senses := st.senses ++ [⟨senseRowid, id, entryRow.lex, entryRow.rowid,
              entryRank, synsetRow.rowid, synsetRank, metadata⟩],
            nextRowid := st.nextRowid + 1 }
          let st2 := if !lexicalized then
              { st1 with unlexSenses := st1.unlexSenses ++ [senseRowid] }
            else st1
          let st3 := match adjposition with
            | some a => { st2 with adjpositions := st2.adjpositions ++ [(senseRowid, a)] }
            | none => st2
          let st4 := { st3 with
            unlexSynsets := st3.unlexSynsets.filter (fun x => x != synsetRow.rowid) }
          (recordCreate st4 "sense" id
            (some ("entry_id=" ++ entryId ++ ",synset_id=" ++ synsetId)), none)

/-- The loop body of editor._cleanup_sense_relations, over the snapshot of
relations involving the removed sense. -/
def cleanupSenseRelLoop : List RelRow → Store → Store
  | [], st => st
  | rel :: rest, st =>
    let st1 :=
      match senseInverse rel.typ with
      | some inv =>
        if st.relationTypes.contains inv then
          deleteSenseRelationRows st rel.tgt rel.src inv
        else st
      | none => st
    let st2 := { st1 with
      senseRelations := st1.senseRelations.filter (fun r => r.rowid != rel.rowid) }
    cleanupSenseRelLoop rest st2

/-- editor._cleanup_sense_relations. -/
def cleanupSenseRelations (st : Store) (senseRowid : Nat) : Store :=
  cleanupSenseRelLoop
    (st.senseRelations.filter (fun r => r.src == senseRowid || r.tgt == senseRowid)) st

/-- editor._remove_sense_internal (remove_sense delegates to it).  The
DELETE on senses cascades to the unlexicalized-sense marks, adjpositions
and relation rows of the deleted sense rows, as the DDL specifies. -/
def removeSenseInternal (st : Store) (senseId : String) : Store × Option Err :=
  match getSenseRow st senseId with
  | none => (st, some (.notFound ("Sense not found: " ++ senseId)))
  | some row =>
    let st1 := cleanupSenseRelations st row.rowid
    let st2 := { st1 with
      senseSynsetRelations := st1.senseSynsetRelations.filter (fun r => r.src != row.rowid) }
    let st3 := recordDelete st2 "sense" senseId none
    let dead := (st3.senses.filter (fun r => r.id == senseId)).map (fun r => r.rowid)
    let st4 := { st3 with
      senses := st3.senses.filter (fun r => r.id != senseId),
      unlexSenses := st3.unlexSenses.filter (fun x => !(dead.contains x)),
      adjpositions := st3.adjpositions.filter (fun p => !(dead.contains p.1)),
      senseRelations := st3.senseRelations.filter
        (fun r => !(dead.contains r.src) && !(dead.contains r.tgt)),
      senseSynsetRelations := st3.senseSynsetRelations.filter
        (fun r => !(dead.contains r.src)) }
    let remaining := (st4.senses.filter (fun r => r.synset == row.synset)).length
    let st5 := if remaining == 0 then
        { st4 with unlexSynsets := st4.unlexSynsets ++ [row.synset] }
      else st4
    (st5, none)

/-- editor.remove_sense. -/
def removeSense (st : Store) (senseId : String) : Store × Option Err :=
  removeSenseInternal st senseId

/-- editor.move_sense. -/
def moveSense (st : Store) (senseId targetSynsetId : String) : Store × Option Err :=
  match getSenseRow st senseId with
  | none => (st, some (.notFound ("Sense not found: " ++ senseId)))
  | some senseRow =>
    match getSynsetRow st targetSynsetId with
    | none => (st, some (.notFound ("Synset not found: " ++ targetSynsetId)))
    | some tgtRow =>
      if st.senses.any (fun r => r.entry == senseRow.entry && r.synset == tgtRow.rowid) then
        (st, some (.duplicate "Entry already has a sense in target synset"))
      else
        let st1 : Store := { st with
          senses := (st.senses.map
            (fun (r : SenseRow) => if r.id == senseId then { r with synset := tgtRow.rowid } else r)) }
        let st2 := { st1 with
          unlexSynsets := st1.unlexSynsets.filter (fun x => x != tgtRow.rowid) }
        let remaining := (st2.senses.filter (fun r => r.synset == senseRow.synset)).length
        let st3 := if remaining == 0 then
            { st2 with unlexSynsets := st2.unlexSynsets ++ [senseRow.synset] }
          else st2
        (recordUpdate st3 "sense" senseId "synset_rowid"
          (some (toString senseRow.synset)) (some (toString tgtRow.rowid)), none)

/-- The rank-assignment loop of editor.reorder_senses: each UPDATE sets
the entry rank of every sense row carrying that id. -/
def reorderLoop : Nat → List String → List SenseRow → List SenseRow
  | _, [], ss => ss
  | rank, sid :: rest, ss =>
    reorderLoop (rank + 1) rest
      (ss.map (fun r => if r.id == sid then { r with entryRank := rank } else r))

/-- editor.reorder_senses: the supplied order is validated only as a set
against the entry's current sense ids. -/
def reorderSenses (st : Store) (entryId : String) (order : List String) :
    Store × Option Err :=
  match getEntryRow st entryId with
  | none => (st, some (.notFound ("Entry not found: " ++ entryId)))
  | some entryRow =>
    let currentIds := (st.senses.filter (fun r => r.entry == entryRow.rowid)).map
      (fun r => r.id)
    if !(order.all (fun x => currentIds.contains x) &&
         currentIds.all (fun x => order.contains x)) then
      (st, some (.validation "sense_id_order must contain exactly the entry sense IDs"))
    else
      ({ st with senses := reorderLoop 1 order st.senses }, none)

/-- editor.propose_ili. -/
def proposeIli (st : Store) (synsetId defn : String) (meta : Option String) :
    Store × Option Err :=
  match getSynsetRow st synsetId with
  | none => (st, some (.notFound ("Synset not found: " ++ synsetId)))
  | some row =>
    if row.ili.isSome then
      (st, some (.validation ("Synset " ++ synsetId ++ " already has an ILI mapping")))
    else if defn.length < 20 then
      (st, some (.validation "ILI definition must be at least 20 characters"))
    else if st.proposedIlis.any (fun p => p.synset == row.rowid) then
      (st, some (.validation ("Synset " ++ synsetId ++ " already has a proposed ILI")))
    else
      let st1 := { st with
        proposedIlis := st.proposedIlis ++ [⟨st.nextRowid, row.rowid, defn, meta⟩],
        nextRowid := st.nextRowid + 1 }
      (recordCreate st1 "ili" synsetId (some defn), none)

/-- Cascade of a DELETE on a single sense row (used by merge_synsets for
redundant source senses). -/
def deleteSenseRowCascade (st : Store) (rid : Nat) : Store :=
  { st with
    senses := st.senses.filter (fun r => r.rowid != rid),
    unlexSenses := st.unlexSenses.filter (fun x => x != rid),
    adjpositions := st.adjpositions.filter (fun p => p.1 != rid),
    senseRelations := st.senseRelations.filter (fun r => r.src != rid && r.tgt != rid),
    senseSynsetRelations := st.senseSynsetRelations.filter (fun r => r.src != rid) }

/-- The sense-transfer loop of merge_synsets (RULE-MERGE-001), over the
snapshot of the source synset's senses. -/
def mergeSensesLoop (tgtRowid : Nat) : List SenseRow → Store → Store
  | [], st => st
  | s :: rest, st =>
    if st.senses.any (fun r => r.entry == s.entry && r.synset == tgtRowid) then
      mergeSensesLoop tgtRowid rest (deleteSenseRowCascade st s.rowid)
    else
      mergeSensesLoop tgtRowid rest
        { st with
          senses := (st.senses.map
            (fun r => if r.rowid == s.rowid then { r with synset := tgtRowid } else r)) }

/-- The outgoing-relation redirect loop of merge_synsets: a row whose
redirect would self-loop is deleted; a redirect that would violate the
UNIQUE (source, target, type) constraint (some other row already carries
the redirected triple) deletes the row instead. -/
def mergeOutLoop (tgtRowid : Nat) : List RelRow → List RelRow → List RelRow
  | [], table => table
  | rel :: rest, table =>
    if rel.tgt == tgtRowid then
      mergeOutLoop tgtRowid rest (table.filter (fun r => r.rowid != rel.rowid))
    else if table.any (fun r => r.rowid != rel.rowid && r.src == tgtRowid &&
        r.tgt == rel.tgt && r.typ == rel.typ) then
      mergeOutLoop tgtRowid rest (table.filter (fun r => r.rowid != rel.rowid))
    else
      mergeOutLoop tgtRowid rest
        (table.map (fun r => if r.rowid == rel.rowid then { r with src := tgtRowid } else r))

/-- The incoming-relation redirect loop of merge_synsets, mirroring
mergeOutLoop on the target side. -/
def mergeInLoop (tgtRowid : Nat) : List RelRow → List RelRow → List RelRow
  | [], table => table
  | rel :: rest, table =>
    if rel.src == tgtRowid then
      mergeInLoop tgtRowid rest (table.filter (fun r => r.rowid != rel.rowid))
    else if table.any (fun r => r.rowid != rel.rowid && r.src == rel.src &&
        r.tgt == tgtRowid && r.typ == rel.typ) then
      mergeInLoop tgtRowid rest (table.filter (fun r => r.rowid != rel.rowid))
    else
      mergeInLoop tgtRowid rest
        (table.map (fun r => if r.rowid == rel.rowid then { r with tgt := tgtRowid } else r))

/-- Python truthiness of a nullable definition text. -/
def defTruthy : Option String → Bool
  | none => false
  | some t => !(t == "")

/-- The definition-merge loop of merge_synsets (RULE-MERGE-004): source
definitions whose trimmed text is new move to the target, the rest are
deleted; the target set is the snapshot taken before the loop. -/
def mergeDefsLoop (tgtRowid : Nat) (tgtDefs : List String) :
    List DefRow → List DefRow → List DefRow
  | [], table => table
  | d :: rest, table =>
    if defTruthy d.text && !(tgtDefs.contains ((d.text.getD "").trim)) then
      mergeDefsLoop tgtRowid tgtDefs rest
        (table.map (fun r => if r.rowid == d.rowid then { r with synset := tgtRowid } else r))
    else
      mergeDefsLoop tgtRowid tgtDefs rest (table.filter (fun r => r.rowid != d.rowid))

/-- Cascade of the final DELETE on the source synset row in merge_synsets
(and delete_synset): the DDL cascades to marks, proposed ILIs, relations,
definitions, examples and senses, and transitively to rows owned by the
deleted senses. -/
def deleteSynsetCascade (st : Store) (rid : Nat) : Store :=
  let dead := (st.senses.filter (fun s => s.synset == rid)).map (fun s => s.rowid)
  { st with
    synsets := st.synsets.filter (fun r => r.rowid != rid),
    unlexSynsets := st.unlexSynsets.filter (fun x => x != rid),
    proposedIlis := st.proposedIlis.filter (fun p => p.synset != rid),
    synsetRelations := st.synsetRelations.filter (fun r => r.src != rid && r.tgt != rid),
    definitions := st.definitions.filter (fun d => d.synset != rid),
    synsetExamples := st.synsetExamples.filter (fun e => e.synset != rid),
    senses := st.senses.filter (fun s => s.synset != rid),
    unlexSenses := st.unlexSenses.filter (fun x => !(dead.contains x)),
    adjpositions := st.adjpositions.filter (fun p => !(dead.contains p.1)),
    senseRelations := st.senseRelations.filter
      (fun r => !(dead.contains r.src) && !(dead.contains r.tgt)),
    senseSynsetRelations := st.senseSynsetRelations.filter
      (fun r => !(dead.contains r.src) && r.tgt != rid) }

/-- editor.merge_synsets. -/
def mergeSynsets (st : Store) (sourceId targetId : String) : Store × Option Err :=
  match getSynsetRow st sourceId with
  | none => (st, some (.notFound ("Synset not found: " ++ sourceId)))
  | some src =>
    match getSynsetRow st targetId with
    | none => (st, some (.notFound ("Synset not found: " ++ targetId)))
    | some tgt =>
      let srcHasIli := src.ili.isSome
      let tgtHasIli := tgt.ili.isSome
      let srcHasProp := st.proposedIlis.any (fun p => p.synset == src.rowid)
      let tgtHasProp := st.proposedIlis.any (fun p => p.synset == tgt.rowid)
      if (srcHasIli || srcHasProp) && (tgtHasIli || tgtHasProp) then
        (st, some (.conflict "Both synsets have ILI mappings"))
      else
        let st1 := if srcHasIli && !tgtHasIli then
            { st with
              synsets := (st.synsets.map
                (fun r => if r.rowid == tgt.rowid then { r with ili := src.ili } else r)) }
          else st
        let st2 := if srcHasProp && !tgtHasProp then
            { st1 with
              proposedIlis := (st1.proposedIlis.map
                (fun p => if p.synset == src.rowid then { p with synset := tgt.rowid } else p)) }
          else st1
        let st3 := mergeSensesLoop tgt.rowid
          (st2.senses.filter (fun r => r.synset == src.rowid)) st2
        let outSnap := st3.synsetRelations.filter (fun r => r.src == src.rowid)
        let tbl1 := mergeOutLoop tgt.rowid outSnap st3.synsetRelations
        let inSnap := tbl1.filter (fun r => r.tgt == src.rowid)
        let tbl2 := mergeInLoop tgt.rowid inSnap tbl1
        let st4 := { st3 with synsetRelations := tbl2 }
        let tgtDefs := (st4.definitions.filter
            (fun d => d.synset == tgt.rowid && defTruthy d.text)).map
          (fun d => (d.text.getD "").trim)
        let srcDefs := st4.definitions.filter (fun d => d.synset == src.rowid)
        let st5 := { st4 with
          definitions := mergeDefsLoop tgt.rowid tgtDefs srcDefs st4.definitions }
        let st6 : Store := { st5 with
          synsetExamples := (st5.synsetExamples.map
            (fun (e : ExRow) => if e.synset == src.rowid then { e with synset := tgt.rowid } else e)) }
        let st7 := { st6 with
          unlexSynsets := st6.unlexSynsets.filter (fun x => x != tgt.rowid) }
        let st8 := deleteSynsetCascade st7 src.rowid
        (recordUpdate st8 "synset" targetId "merge_from" (some "null") (some sourceId), none)
/-- Witness store for C1 and C8: two synsets in one lexicon. -/
def c1Store : Store :=
  { Store.empty with
    synsets := [⟨1, "awn-00000001-n", 1, none, "n", none⟩,
                ⟨2, "awn-00000002-n", 1, none, "n", none⟩],
    nextRowid := 3 }
/-- Witness store for C8: two synsets, no relations. -/
def c8Store : Store :=
  { Store.empty with
    synsets := [⟨1, "awn-00000001-n", 1, none, "n", none⟩,
                ⟨2, "awn-00000002-n", 1, none, "n", none⟩],
    nextRowid := 3 }
/-- The 1-based position of the last occurrence of an id in the supplied
order list, if any. -/
def lastRank : List String → String → Option Nat
  | [], _ => none
  | x :: xs, sid =>
    match lastRank xs sid with
    | some k => some (k + 1)
    | none => if x == sid then some 1 else none

/-- Witness store for C10: one entry with senses a and b. -/
def c10Store : Store :=
  { Store.empty with
    entries := [⟨20, "awn-dog-n", 1, "n", none⟩],
    senses := [⟨30, "a", 1, 20, 1, 100, 1, none⟩,
               ⟨31, "b", 1, 20, 2, 100, 2, none⟩],
    nextRowid := 40 }
/-- Witness store for C6: one synset with no ILI binding. -/
def c6Store : Store :=
  { Store.empty with
    synsets := [⟨5, "awn-00000001-n", 1, none, "n", none⟩],
    nextRowid := 6 }

/-- Witness store for C7: the base id awn-cat-n is taken and suffixes 2
and 4 exist, leaving the gap 3. -/
def c7Store : Store :=
  { Store.empty with
    entries := [⟨1, "awn-cat-n", 1, "n", none⟩,
                ⟨2, "awn-cat-n-2", 1, "n", none⟩,
                ⟨3, "awn-cat-n-4", 1, "n", none⟩],
    nextRowid := 4 }

/-- The editor-plus-connection state for the batch model: the working
database (store), the last committed snapshot that ROLLBACK restores
(committed), and the _in_batch / _batch_depth flags of WordnetEditor. -/
structure EState where
  store : Store
  committed : Store
  inBatch : Bool
  depth : Nat

/-- Program fragments run against the editor: a single public mutation
method (given as its store transformer plus optional raised error), or a
batch() scope around a list of statements. -/
inductive Stmt where
| op : (Store → Store × Option Err) → Stmt
| batch : List Stmt → Stmt

mutual

/-- Executes one statement.  An op goes through the _modifies_db wrapper:
inside a batch it runs bare; outside, with self._conn commits its writes
on success and rolls them back on an exception.  A batch scope mirrors
editor.batch(): depth increment, BEGIN at depth 1, rollback plus flag
reset at depth 1 on an escaping exception (re-raised), COMMIT when the
outermost scope exits normally. -/
def runStmt : Stmt → EState → EState × Option Err
  | .op f, s =>
    if s.inBatch then
      ({ s with
          store := (f s.store).1 }, (f s.store).2)
    else
      match (f s.store).2 with
      | none =>
        ({ s with
            store := (f s.store).1,
            committed := (f s.store).1 }, none)
      | some err =>
        ({ s with
            store := s.committed }, some err)
  | .batch body, s =>
    let s1 : EState :=
      if s.depth + 1 == 1 then
        { s with
            depth := s.depth + 1,
            inBatch := true,
            committed := s.store }
      else
        { s with
            depth := s.depth + 1 }
    let r := runList body s1
    match r.2 with
    | some err =>
      if r.1.depth == 1 then
        ({ r.1 with
            store := r.1.committed,
            inBatch := false,
            depth := r.1.depth - 1 }, some err)
      else
        ({ r.1 with
            depth := r.1.depth - 1 }, some err)
    | none =>
      if r.1.depth - 1 == 0 then
        ({ r.1 with
            depth := r.1.depth - 1,
            committed := r.1.store,
            inBatch := false }, none)
      else
        ({ r.1 with
            depth := r.1.depth - 1 }, none)

/-- Executes statements in order, stopping at the first raised error
(which propagates out of the enclosing scopes). -/
def runList : List Stmt → EState → EState × Option Err
  | [], s => (s, none)
  | c :: rest, s =>
    match (runStmt c s).2 with
    | none => runList rest (runStmt c s).1
    | some e => ((runStmt c s).1, some e)

end

/-- A mutation that writes an edit-history row and succeeds. -/
def c2Good : Store → Store × Option Err :=
  fun st => (recordCreate st "synset" "test-s1" (some "created"), none)

/-- A mutation that raises ValidationError without writing. -/
def c2Bad : Store → Store × Option Err :=
  fun st => (st, some (Err.validation "boom"))

def c2Body : List Stmt := [.op c2Good, .op c2Bad]

def c2S0 : EState := ⟨Store.empty, Store.empty, false, 0⟩

/-- The lexicalized flag reported by get_synset: true iff no
unlexicalized mark exists for the synset rowid. -/
def synsetLexicalizedReported (st : Store) (rid : Nat) : Bool :=
  !(st.unlexSynsets.contains rid)

/-- The C3 invariant: an unlexicalized mark never coexists with owned
senses. -/
def markInv (st : Store) : Prop :=
  ∀ m ∈ st.unlexSynsets, ∀ r ∈ st.senses, r.synset ≠ m

/-- Witness store for C3: synset 2 owns the one sense, synset 3 is
marked unlexicalized and empty. -/
def c3Store : Store :=
  { Store.empty with
    lexicons := [⟨1, "awn:1.0", "awn", "Arabic WordNet", "ar", "a@b.c", "MIT",
      "1.0", none, none, none, none, false⟩],
    synsets := [⟨2, "awn-00000001-n", 1, none, "n", none⟩,
                ⟨3, "awn-00000002-n", 1, none, "n", none⟩],
    entries := [⟨4, "awn-cat-n", 1, "n", none⟩],
    senses := [⟨5, "awn-cat-n-00000001-n-01", 1, 4, 1, 2, 1, none⟩],
    unlexSynsets := [3],
    nextRowid := 6 }

/-- No two distinct rows (by rowid) of a relation table carry the same
(source, target, type) triple: the UNIQUE constraint of the DDL. -/
def keyedDistinct (l : List RelRow) : Prop :=
  ∀ r1 ∈ l, ∀ r2 ∈ l, r1.rowid ≠ r2.rowid →
    ¬(r1.src = r2.src ∧ r1.tgt = r2.tgt ∧ r1.typ = r2.typ)

/-- Witness store for C4: the S-5 chain A(2) -hypernym-> B(3)
-hypernym-> C(4) with stored inverses. -/
def c4Store : Store :=
  { Store.empty with
    lexicons := [⟨1, "awn:1.0", "awn", "AWN", "ar", "a@b.c", "MIT", "1.0",
      none, none, none, none, false⟩],
    synsets := [⟨2, "awn-00000001-n", 1, none, "n", none⟩,
                ⟨3, "awn-00000002-n", 1, none, "n", none⟩,
                ⟨4, "awn-00000003-n", 1, none, "n", none⟩],
    synsetRelations := [⟨5, 1, 2, 3, "hypernym", none⟩,
                        ⟨6, 1, 3, 4, "hypernym", none⟩,
                        ⟨7, 1, 3, 2, "hyponym", none⟩,
                        ⟨8, 1, 4, 3, "hyponym", none⟩],
    nextRowid := 9 }

/-- A find? by business id that succeeds returns a member of the table. -/
theorem mem_of_getSynsetRow {st : Store} {sid : String} {row : SynsetRow}
    (h : getSynsetRow st sid = some row) : row ∈ st.synsets ∧ row.id = sid := by
  unfold getSynsetRow at h
  refine ⟨List.mem_of_find?_eq_some h, ?_⟩
  have := List.find?_some h
  simpa using this

/-- Distinct ids resolve to rows with distinct rowids when the synset
rowids are pairwise distinct. -/
theorem rowid_ne_of_getSynsetRow {st : Store} {sidA sidB : String}
    {ra rb : SynsetRow} (hnodup : (st.synsets.map SynsetRow.rowid).Nodup)
    (ha : getSynsetRow st sidA = some ra) (hb : getSynsetRow st sidB = some rb)
    (hne : sidA ≠ sidB) : ra.rowid ≠ rb.rowid := by
  obtain ⟨hma, hia⟩ := mem_of_getSynsetRow ha
  obtain ⟨hmb, hib⟩ := mem_of_getSynsetRow hb
  intro heq
  have hinj := List.inj_on_of_nodup_map hnodup
  have : ra = rb := hinj hma hmb heq
  exact hne (by rw [← hia, ← hib, this])

/-- Same for senses. -/
theorem mem_of_getSenseRow {st : Store} {sid : String} {row : SenseRow}
    (h : getSenseRow st sid = some row) : row ∈ st.senses ∧ row.id = sid := by
  unfold getSenseRow at h
  refine ⟨List.mem_of_find?_eq_some h, ?_⟩
  have := List.find?_some h
  simpa using this

/-- Distinct sense ids resolve to distinct rowids under rowid Nodup. -/
theorem rowid_ne_of_getSenseRow {st : Store} {sidA sidB : String}
    {ra rb : SenseRow} (hnodup : (st.senses.map SenseRow.rowid).Nodup)
    (ha : getSenseRow st sidA = some ra) (hb : getSenseRow st sidB = some rb)
    (hne : sidA ≠ sidB) : ra.rowid ≠ rb.rowid := by
  obtain ⟨hma, hia⟩ := mem_of_getSenseRow ha
  obtain ⟨hmb, hib⟩ := mem_of_getSenseRow hb
  intro heq
  have hinj := List.inj_on_of_nodup_map hnodup
  have : ra = rb := hinj hma hmb heq
  exact hne (by rw [← hia, ← hib, this])

/-- C9: when the source or target id passed to remove_synset_relation or
remove_sense_relation does not resolve, the call returns without an error
and without modifying any table (in particular no edit-history row); the
corresponding add operations instead raise EntityNotFoundError for a
missing endpoint and leave the store unchanged. -/
theorem claim9_remove_relation_silent_on_missing_endpoint
    (st : Store) (a R b : String) (auto : Bool) :
    ((getSynsetRow st a = none ∨ getSynsetRow st b = none) →
      removeSynsetRelation st a R b auto = (st, none)) ∧
    ((getSenseRow st a = none ∨ getSenseRow st b = none) →
      removeSenseRelation st a R b auto = (st, none)) ∧
    (isValidSynsetRelation R = true → a ≠ b → getSynsetRow st a = none →
      addSynsetRelation st a R b auto none =
        (st, some (Err.notFound ("Synset not found: " ++ a)))) ∧
    (isValidSynsetRelation R = true → a ≠ b →
      getSynsetRow st b = none →
      (addSynsetRelation st a R b auto none).1 = st ∧
      ∃ msg, (addSynsetRelation st a R b auto none).2 = some (Err.notFound msg)) ∧
    (isValidSenseRelation R = true → a ≠ b → getSenseRow st a = none →
      addSenseRelation st a R b auto none =
        (st, some (Err.notFound ("Sense not found: " ++ a)))) := by
  have hbeq : ∀ _ : a ≠ b, (a == b) = false := fun h => by
    simpa using h
  refine ⟨?_, ?_, ?_, ?_, ?_⟩
  · rintro (h | h)
    · unfold removeSynsetRelation
      rw [h]
    · unfold removeSynsetRelation
      rcases ha : getSynsetRow st a with _ | r <;> rw [h]
  · rintro (h | h)
    · unfold removeSenseRelation
      rw [h]
    · unfold removeSenseRelation
      rcases ha : getSenseRow st a with _ | r <;> rw [h]
  · intro hv hne ha
    simp [addSynsetRelation, hv, hbeq hne, ha]
  · intro hv hne hb
    rcases ha : getSynsetRow st a with _ | ra
    · constructor
      · simp [addSynsetRelation, hv, hbeq hne, ha]
      · exact ⟨"Synset not found: " ++ a, by simp [addSynsetRelation, hv, hbeq hne, ha]⟩
    · constructor
      · simp [addSynsetRelation, hv, hbeq hne, ha, hb]
      · exact ⟨"Synset not found: " ++ b, by simp [addSynsetRelation, hv, hbeq hne, ha, hb]⟩
  · intro hv hne ha
    simp [addSenseRelation, hv, hbeq hne, ha]

/-- Witness for C9 at a concrete empty store. -/
theorem claim9_witness :
    (getSynsetRow Store.empty "a" = none ∨ getSynsetRow Store.empty "b" = none) ∧
    removeSynsetRelation Store.empty "a" "hypernym" "b" true = (Store.empty, none) := by
  refine ⟨Or.inl rfl, ?_⟩
  exact (claim9_remove_relation_silent_on_missing_endpoint Store.empty
    "a" "hypernym" "b" true).1 (Or.inl rfl)

/-- C5 evidence: creating lexicon awn version 1.0 and then awn version 2.0
raises no error, and the store then holds two lexicons sharing the bare
id awn, contradicting invariant I-11 of the specification and the repo's
own test suite. -/
theorem claim5_code_bug_evidence :
    ((createLexicon (createLexicon Store.empty "awn" "Arabic WordNet" "ar"
        "a@b.c" "MIT" "1.0" none none none none).1
      "awn" "AWN v2" "ar" "a@b.c" "MIT" "2.0" none none none none).2 = none) ∧
    ((createLexicon (createLexicon Store.empty "awn" "Arabic WordNet" "ar"
        "a@b.c" "MIT" "1.0" none none none none).1
      "awn" "AWN v2" "ar" "a@b.c" "MIT" "2.0" none none none none).1.lexicons.map
        (fun r => (r.id, r.version))) = [("awn", "1.0"), ("awn", "2.0")] := by
  exact ⟨rfl, rfl⟩
theorem getOrCreateRelationType_synsetRelations (st : Store) (t : String) :
    (getOrCreateRelationType st t).synsetRelations = st.synsetRelations := by
  unfold getOrCreateRelationType; split <;> rfl

theorem getOrCreateRelationType_senseRelations (st : Store) (t : String) :
    (getOrCreateRelationType st t).senseRelations = st.senseRelations := by
  unfold getOrCreateRelationType; split <;> rfl

theorem getOrCreateRelationType_synsets (st : Store) (t : String) :
    (getOrCreateRelationType st t).synsets = st.synsets := by
  unfold getOrCreateRelationType; split <;> rfl

theorem getOrCreateRelationType_senses (st : Store) (t : String) :
    (getOrCreateRelationType st t).senses = st.senses := by
  unfold getOrCreateRelationType; split <;> rfl

theorem getOrCreateRelationType_senseSynsetRelations (st : Store) (t : String) :
    (getOrCreateRelationType st t).senseSynsetRelations = st.senseSynsetRelations := by
  unfold getOrCreateRelationType; split <;> rfl

theorem getOrCreateRelationType_contains (st : Store) (t : String) :
    (getOrCreateRelationType st t).relationTypes.contains t = true := by
  unfold getOrCreateRelationType
  split
  · next h => exact h
  · simp

theorem getOrCreateRelationType_contains_mono (st : Store) (t x : String)
    (h : st.relationTypes.contains x = true) :
    (getOrCreateRelationType st t).relationTypes.contains x = true := by
  unfold getOrCreateRelationType
  split
  · exact h
  · exact List.elem_eq_true_of_mem
      (List.mem_append_left _ (List.mem_of_elem_eq_true h))

theorem insertSynsetRelation_exists (st : Store) (lex s t : Nat) (typ : String)
    (m : Option String) :
    ∃ r ∈ (insertSynsetRelation st lex s t typ m).synsetRelations,
      r.src = s ∧ r.tgt = t ∧ r.typ = typ := by
  unfold insertSynsetRelation
  split
  · next h =>
    rcases List.any_eq_true.mp h with ⟨r, hr, hm⟩
    simp only [Bool.and_eq_true, beq_iff_eq] at hm
    exact ⟨r, hr, hm.1.1, hm.1.2, hm.2⟩
  · exact ⟨⟨st.nextRowid, lex, s, t, typ, m⟩, by simp, rfl, rfl, rfl⟩

theorem insertSynsetRelation_mono {st : Store} {lex s t : Nat} {typ : String}
    {m : Option String} {r : RelRow} (h : r ∈ st.synsetRelations) :
    r ∈ (insertSynsetRelation st lex s t typ m).synsetRelations := by
  unfold insertSynsetRelation
  split
  · exact h
  · simp only [List.mem_append]
    exact Or.inl h

theorem insertSynsetRelation_senseRelations (st : Store) (lex s t : Nat)
    (typ : String) (m : Option String) :
    (insertSynsetRelation st lex s t typ m).senseRelations = st.senseRelations := by
  unfold insertSynsetRelation; split <;> rfl

theorem insertSynsetRelation_synsets (st : Store) (lex s t : Nat)
    (typ : String) (m : Option String) :
    (insertSynsetRelation st lex s t typ m).synsets = st.synsets := by
  unfold insertSynsetRelation; split <;> rfl

theorem insertSynsetRelation_sub {st : Store} {lex s t : Nat} {typ : String}
    {m : Option String} {r : RelRow}
    (h : r ∈ (insertSynsetRelation st lex s t typ m).synsetRelations) :
    r ∈ st.synsetRelations ∨ r = ⟨st.nextRowid, lex, s, t, typ, m⟩ := by
  unfold insertSynsetRelation at h
  split at h
  · exact Or.inl h
  · simp only [List.mem_append, List.mem_singleton] at h
    exact h

theorem insertSenseRelation_exists (st : Store) (lex s t : Nat) (typ : String)
    (m : Option String) :
    ∃ r ∈ (insertSenseRelation st lex s t typ m).senseRelations,
      r.src = s ∧ r.tgt = t ∧ r.typ = typ := by
  unfold insertSenseRelation
  split
  · next h =>
    rcases List.any_eq_true.mp h with ⟨r, hr, hm⟩
    simp only [Bool.and_eq_true, beq_iff_eq] at hm
    exact ⟨r, hr, hm.1.1, hm.1.2, hm.2⟩
  · exact ⟨⟨st.nextRowid, lex, s, t, typ, m⟩, by simp, rfl, rfl, rfl⟩

theorem insertSenseRelation_mono {st : Store} {lex s t : Nat} {typ : String}
    {m : Option String} {r : RelRow} (h : r ∈ st.senseRelations) :
    r ∈ (insertSenseRelation st lex s t typ m).senseRelations := by
  unfold insertSenseRelation
  split
  · exact h
  · simp only [List.mem_append]
    exact Or.inl h

theorem insertSynsetRelation_fresh (st : Store) (lex s t : Nat) (typ : String)
    (m : Option String)
    (h : ∀ r ∈ st.synsetRelations, ¬(r.src = s ∧ r.tgt = t ∧ r.typ = typ)) :
    ∃ r ∈ (insertSynsetRelation st lex s t typ m).synsetRelations,
      r.src = s ∧ r.tgt = t ∧ r.typ = typ ∧ r.meta = m := by
  unfold insertSynsetRelation
  split
  · next hany =>
    exfalso
    rcases List.any_eq_true.mp hany with ⟨r, hr, hm⟩
    simp only [Bool.and_eq_true, beq_iff_eq] at hm
    exact h r hr ⟨hm.1.1, hm.1.2, hm.2⟩
  · exact ⟨⟨st.nextRowid, lex, s, t, typ, m⟩, by simp, rfl, rfl, rfl, rfl⟩

theorem find?_rowid_of_nodup {l : List SynsetRow} {a : SynsetRow}
    (hnodup : (l.map SynsetRow.rowid).Nodup) (ha : a ∈ l) :
    l.find? (fun x => x.rowid == a.rowid) = some a := by
  induction l with
  | nil => cases ha
  | cons b tl ih =>
    simp only [List.map_cons, List.nodup_cons] at hnodup
    rcases List.mem_cons.mp ha with rfl | hmem
    · simp [List.find?]
    · have hbne : (b.rowid == a.rowid) = false := by
        simp only [beq_eq_false_iff_ne, ne_eq]
        intro he
        exact hnodup.1 (he ▸ List.mem_map_of_mem SynsetRow.rowid hmem)
      simp only [List.find?, hbne]
      exact ih hnodup.2 hmem

theorem recordCreate_synsetRelations (st : Store) (a b : String) (v : Option String) :
    (recordCreate st a b v).synsetRelations = st.synsetRelations := rfl

theorem recordCreate_senseRelations (st : Store) (a b : String) (v : Option String) :
    (recordCreate st a b v).senseRelations = st.senseRelations := rfl

theorem recordCreate_synsets (st : Store) (a b : String) (v : Option String) :
    (recordCreate st a b v).synsets = st.synsets := rfl

theorem recordCreate_senses (st : Store) (a b : String) (v : Option String) :
    (recordCreate st a b v).senses = st.senses := rfl

theorem recordCreate_relationTypes (st : Store) (a b : String) (v : Option String) :
    (recordCreate st a b v).relationTypes = st.relationTypes := rfl

theorem getSynsetRow_congr {st st' : Store} (h : st'.synsets = st.synsets)
    (sid : String) : getSynsetRow st' sid = getSynsetRow st sid := by
  unfold getSynsetRow
  rw [h]

/-- C1: for distinct stored synsets A and B and a relation kind R whose
catalog inverse is R inverse, a successful add_synset_relation(A, R, B)
with auto_inverse true stores the forward row and the inverse row
(B, R inverse, A); when the inverse row was absent beforehand it is
stored with no metadata (an existing duplicate is silently kept);
symmetric kinds, whose inverse is themselves, thus end up stored in both
directions.  After add_synset_relation(A, "hypernym", B) the outgoing
relations of B include ("hyponym", A).  The same inverse behaviour holds
for add_sense_relation over senses. -/
theorem claim1_auto_inverse
    (st : Store) (A R B : String) (ra rb : SynsetRow) (meta : Option String)
    (st' : Store)
    (hnodup : (st.synsets.map SynsetRow.rowid).Nodup)
    (hA : getSynsetRow st A = some ra) (hB : getSynsetRow st B = some rb)
    (hne : A ≠ B)
    (hrun : addSynsetRelation st A R B true meta = (st', none)) :
    ((∃ r ∈ st'.synsetRelations, r.src = ra.rowid ∧ r.tgt = rb.rowid ∧ r.typ = R) ∧
     (∀ inv, synsetInverse R = some inv →
       ∃ r ∈ st'.synsetRelations, r.src = rb.rowid ∧ r.tgt = ra.rowid ∧ r.typ = inv) ∧
     (∀ inv, synsetInverse R = some inv →
       (∀ r ∈ st.synsetRelations, ¬(r.src = rb.rowid ∧ r.tgt = ra.rowid ∧ r.typ = inv)) →
       ∃ r ∈ st'.synsetRelations,
         r.src = rb.rowid ∧ r.tgt = ra.rowid ∧ r.typ = inv ∧ r.meta = none) ∧
     (R = "hypernym" →
       ∃ l, getSynsetRelations st' B none = Except.ok l ∧
         ∃ m ∈ l, m.relType = "hyponym" ∧ m.targetId = A)) ∧
    (∀ (sst sst' : Store) (sa sb : SenseRow),
      getSenseRow sst A = some sa → getSenseRow sst B = some sb →
      addSenseRelation sst A R B true meta = (sst', none) →
      ∀ inv, senseInverse R = some inv →
        ∃ r ∈ sst'.senseRelations, r.src = sb.rowid ∧ r.tgt = sa.rowid ∧ r.typ = inv) := by
  have hAB : (A == B) = false := by simpa using hne
  have hv : isValidSynsetRelation R = true := by
    by_contra h
    have h' : isValidSynsetRelation R = false := by
      simpa using h
    simp [addSynsetRelation, h'] at hrun
  have hra := mem_of_getSynsetRow hA
  have hrb := mem_of_getSynsetRow hB
  have hrowne : ra.rowid ≠ rb.rowid := rowid_ne_of_getSynsetRow hnodup hA hB hne
  simp only [addSynsetRelation, hv, hAB, Bool.not_true, Bool.false_eq_true,
    if_false, hA, hB, if_true] at hrun
  constructor
  · rcases hinvCase : synsetInverse R with _ | inv <;>
      simp only [hinvCase] at hrun <;>
      obtain ⟨hst, -⟩ := Prod.mk.injEq .. ▸ hrun
    · -- no catalog inverse: only the forward row is inserted
      subst hst
      refine ⟨?_, ?_, ?_, ?_⟩
      · rw [recordCreate_synsetRelations]
        exact insertSynsetRelation_exists ..
      · intro inv hinv
        cases hinv
      · intro inv hinv
        cases hinv
      · intro hR
        subst hR
        have : synsetInverse "hypernym" = some "hyponym" := by decide
        rw [this] at hinvCase
        cases hinvCase
    · -- the catalog inverse row is inserted second
      subst hst
      have hfwd := insertSynsetRelation_exists (getOrCreateRelationType st R)
        ra.lex ra.rowid rb.rowid R meta
      have hinvrow := insertSynsetRelation_exists
        (getOrCreateRelationType
          (recordCreate
            (insertSynsetRelation (getOrCreateRelationType st R)
              ra.lex ra.rowid rb.rowid R meta)
            "relation" (A ++ "->" ++ R ++ "->" ++ B) none) inv)
        rb.lex rb.rowid ra.rowid inv none
      have hsetsEq :
          (insertSynsetRelation
            (getOrCreateRelationType
              (recordCreate
                (insertSynsetRelation (getOrCreateRelationType st R)
                  ra.lex ra.rowid rb.rowid R meta)
                "relation" (A ++ "->" ++ R ++ "->" ++ B) none) inv)
            rb.lex rb.rowid ra.rowid inv none).synsets = st.synsets := by
        rw [insertSynsetRelation_synsets, getOrCreateRelationType_synsets,
          recordCreate_synsets, insertSynsetRelation_synsets,
          getOrCreateRelationType_synsets]
      have hinvmem :
          ∃ r ∈ (insertSynsetRelation
            (getOrCreateRelationType
              (recordCreate
                (insertSynsetRelation (getOrCreateRelationType st R)
                  ra.lex ra.rowid rb.rowid R meta)
                "relation" (A ++ "->" ++ R ++ "->" ++ B) none) inv)
            rb.lex rb.rowid ra.rowid inv none).synsetRelations,
            r.src = rb.rowid ∧ r.tgt = ra.rowid ∧ r.typ = inv := hinvrow
      refine ⟨?_, ?_, ?_, ?_⟩
      · obtain ⟨r, hr, hp⟩ := hfwd
        exact ⟨r, insertSynsetRelation_mono
          (by rw [getOrCreateRelationType_synsetRelations,
                  recordCreate_synsetRelations]; exact hr), hp⟩
      · intro inv' hinv'
        cases hinv'
        exact hinvmem
      · intro inv' hinv' habsent
        cases hinv'
        -- the duplicate check on the inverse insert fails, so the row is
        -- freshly appended with no metadata
        apply insertSynsetRelation_fresh
        intro r hr hmatch
        rw [getOrCreateRelationType_synsetRelations,
          recordCreate_synsetRelations] at hr
        rcases insertSynsetRelation_sub hr with hold | hnew
        · rw [getOrCreateRelationType_synsetRelations] at hold
          exact habsent r hold hmatch
        · rw [hnew] at hmatch
          exact hrowne hmatch.1
      · intro hR
        subst hR
        have hhyp : synsetInverse "hypernym" = some "hyponym" := by decide
        rw [hhyp] at hinvCase
        have hinveq : inv = "hyponym" := (Option.some.inj hinvCase).symm
        subst hinveq
        obtain ⟨r, hr, hsrc, htgt, htyp⟩ := hinvmem
        unfold getSynsetRelations
        rw [getSynsetRow_congr hsetsEq, hB]
        refine ⟨_, rfl, ?_⟩
        refine ⟨⟨rb.id, ra.id, r.typ, r.meta⟩, ?_, htyp, hrb.2 ▸ hra.2⟩
        apply List.mem_filterMap.mpr
        refine ⟨r, ?_, ?_⟩
        · apply List.mem_filter.mpr
          refine ⟨hr, ?_⟩
          simp [hsrc]
        · rw [hsetsEq, hsrc, htgt,
            find?_rowid_of_nodup hnodup hrb.1,
            find?_rowid_of_nodup hnodup hra.1]
  · intro sst sst' sa sb hsa hsb hsrun inv hinv
    have hsv : isValidSenseRelation R = true := by
      by_contra h
      have h' : isValidSenseRelation R = false := by
        simpa using h
      simp [addSenseRelation, h'] at hsrun
    simp only [addSenseRelation, hsv, hAB, Bool.not_true, Bool.false_eq_true,
      if_false, hsa, hsb, if_true, hinv] at hsrun
    obtain ⟨hst, -⟩ := Prod.mk.injEq .. ▸ hsrun
    subst hst
    exact insertSenseRelation_exists ..

/-- Witness for C1: adding a hypernym relation between two concrete
synsets stores the hyponym inverse row. -/
theorem claim1_witness :
    ∃ r ∈ (addSynsetRelation c1Store "awn-00000001-n" "hypernym"
        "awn-00000002-n" true none).1.synsetRelations,
      r.src = 2 ∧ r.tgt = 1 ∧ r.typ = "hyponym" := by
  have h := (claim1_auto_inverse c1Store "awn-00000001-n" "hypernym"
    "awn-00000002-n" ⟨1, "awn-00000001-n", 1, none, "n", none⟩
    ⟨2, "awn-00000002-n", 1, none, "n", none⟩ none
    (addSynsetRelation c1Store "awn-00000001-n" "hypernym"
      "awn-00000002-n" true none).1
    (by decide) rfl rfl (by decide) rfl).1.2.1 "hyponym" (by decide)
  exact h
theorem getOrCreateRelationType_nextRowid (st : Store) (t : String) :
    (getOrCreateRelationType st t).nextRowid = st.nextRowid := by
  unfold getOrCreateRelationType; split <;> rfl

theorem insertSynsetRelation_relationTypes (st : Store) (lex a b : Nat)
    (typ : String) (m : Option String) :
    (insertSynsetRelation st lex a b typ m).relationTypes = st.relationTypes := by
  unfold insertSynsetRelation; split <;> rfl

theorem insertSynsetRelation_senseSynsetRelations (st : Store) (lex a b : Nat)
    (typ : String) (m : Option String) :
    (insertSynsetRelation st lex a b typ m).senseSynsetRelations =
      st.senseSynsetRelations := by
  unfold insertSynsetRelation; split <;> rfl

theorem recordCreate_senseSynsetRelations (st : Store) (a b : String)
    (v : Option String) :
    (recordCreate st a b v).senseSynsetRelations = st.senseSynsetRelations := rfl

theorem recordDelete_synsetRelations (st : Store) (a b : String) (v : Option String) :
    (recordDelete st a b v).synsetRelations = st.synsetRelations := rfl

theorem recordDelete_senseRelations (st : Store) (a b : String) (v : Option String) :
    (recordDelete st a b v).senseRelations = st.senseRelations := rfl

theorem recordDelete_senseSynsetRelations (st : Store) (a b : String)
    (v : Option String) :
    (recordDelete st a b v).senseSynsetRelations = st.senseSynsetRelations := rfl

theorem recordDelete_relationTypes (st : Store) (a b : String) (v : Option String) :
    (recordDelete st a b v).relationTypes = st.relationTypes := rfl

theorem deleteSynsetRelationRows_rels (st : Store) (a b : Nat) (typ : String) :
    (deleteSynsetRelationRows st a b typ).synsetRelations =
      st.synsetRelations.filter
        (fun r => !(r.src == a && r.tgt == b && r.typ == typ)) := rfl

theorem deleteSynsetRelationRows_senseRelations (st : Store) (a b : Nat)
    (typ : String) :
    (deleteSynsetRelationRows st a b typ).senseRelations = st.senseRelations := rfl

theorem deleteSynsetRelationRows_senseSynsetRelations (st : Store) (a b : Nat)
    (typ : String) :
    (deleteSynsetRelationRows st a b typ).senseSynsetRelations =
      st.senseSynsetRelations := rfl

theorem deleteSynsetRelationRows_relationTypes (st : Store) (a b : Nat)
    (typ : String) :
    (deleteSynsetRelationRows st a b typ).relationTypes = st.relationTypes := rfl

/-- A relation-row filter that matches nothing in the list is the
identity. -/
theorem filter_not_match_eq_self {l : List RelRow} {a b : Nat} {typ : String}
    (h : ∀ r ∈ l, ¬(r.src = a ∧ r.tgt = b ∧ r.typ = typ)) :
    l.filter (fun r => !(r.src == a && r.tgt == b && r.typ == typ)) = l := by
  apply List.filter_eq_self.mpr
  intro r hr
  cases hb : (r.src == a && r.tgt == b && r.typ == typ)
  · simp [hb]
  · exfalso
    apply h r hr
    simp only [Bool.and_eq_true, beq_iff_eq] at hb
    exact ⟨hb.1.1, hb.1.2, hb.2⟩

/-- A fresh triple is appended: the relations list after the insert. -/
theorem insertSynsetRelation_rels_of_absent (st : Store) (lex a b : Nat)
    (typ : String) (m : Option String)
    (h : ∀ r ∈ st.synsetRelations, ¬(r.src = a ∧ r.tgt = b ∧ r.typ = typ)) :
    (insertSynsetRelation st lex a b typ m).synsetRelations =
      st.synsetRelations ++ [⟨st.nextRowid, lex, a, b, typ, m⟩] := by
  unfold insertSynsetRelation
  split
  · next hany =>
    exfalso
    rcases List.any_eq_true.mp hany with ⟨r, hr, hm⟩
    simp only [Bool.and_eq_true, beq_iff_eq] at hm
    exact h r hr ⟨hm.1.1, hm.1.2, hm.2⟩
  · rfl

/-- C8: for distinct stored synsets a and b and a valid kind R such that
neither (a, R, b) nor its catalog inverse row is stored, executing
add_synset_relation(a, R, b) followed by remove_synset_relation(a, R, b)
with default auto_inverse leaves synset_relations, sense_relations and
sense_synset_relations holding exactly the rows they held before. -/
theorem claim8_add_remove_noop
    (st : Store) (A R B : String) (ra rb : SynsetRow) (meta : Option String)
    (hnodup : (st.synsets.map SynsetRow.rowid).Nodup)
    (hA : getSynsetRow st A = some ra) (hB : getSynsetRow st B = some rb)
    (hne : A ≠ B) (hv : isValidSynsetRelation R = true)
    (hnofwd : ∀ r ∈ st.synsetRelations,
      ¬(r.src = ra.rowid ∧ r.tgt = rb.rowid ∧ r.typ = R))
    (hnoinv : ∀ inv, synsetInverse R = some inv →
      ∀ r ∈ st.synsetRelations,
        ¬(r.src = rb.rowid ∧ r.tgt = ra.rowid ∧ r.typ = inv)) :
    (addSynsetRelation st A R B true meta).2 = none ∧
    (removeSynsetRelation (addSynsetRelation st A R B true meta).1
        A R B true).1.synsetRelations = st.synsetRelations ∧
    (removeSynsetRelation (addSynsetRelation st A R B true meta).1
        A R B true).1.senseRelations = st.senseRelations ∧
    (removeSynsetRelation (addSynsetRelation st A R B true meta).1
        A R B true).1.senseSynsetRelations = st.senseSynsetRelations := by
  have hAB : (A == B) = false := by simpa using hne
  have hrowne : ra.rowid ≠ rb.rowid := rowid_ne_of_getSynsetRow hnodup hA hB hne
  simp only [addSynsetRelation, hv, hAB, Bool.not_true, Bool.false_eq_true,
    if_false, hA, hB, if_true]
  rcases hinvCase : synsetInverse R with _ | inv
  all_goals simp only [hinvCase]
  · -- no catalog inverse
    set stIns := insertSynsetRelation (getOrCreateRelationType st R)
      ra.lex ra.rowid rb.rowid R meta with hstIns
    set st1 := recordCreate stIns "relation"
      (A ++ "->" ++ R ++ "->" ++ B) none with hst1
    have hsyn1 : st1.synsets = st.synsets := by
      rw [hst1, recordCreate_synsets, hstIns, insertSynsetRelation_synsets,
        getOrCreateRelationType_synsets]
    have hrels1 : st1.synsetRelations =
        st.synsetRelations ++ [⟨st.nextRowid, ra.lex, ra.rowid, rb.rowid, R, meta⟩] := by
      rw [hst1, recordCreate_synsetRelations, hstIns]
      rw [insertSynsetRelation_rels_of_absent]
      · rw [getOrCreateRelationType_synsetRelations,
          getOrCreateRelationType_nextRowid]
      · rw [getOrCreateRelationType_synsetRelations]
        exact hnofwd
    have hty1 : st1.relationTypes.contains R = true := by
      rw [hst1, recordCreate_relationTypes, hstIns,
        insertSynsetRelation_relationTypes]
      exact getOrCreateRelationType_contains st R
    have hA1 : getSynsetRow st1 A = some ra := by
      rw [getSynsetRow_congr hsyn1]; exact hA
    have hB1 : getSynsetRow st1 B = some rb := by
      rw [getSynsetRow_congr hsyn1]; exact hB
    simp only [removeSynsetRelation, hA1, hB1, hty1, Bool.not_true,
      Bool.false_eq_true, if_false, if_true, hinvCase]
    refine ⟨trivial, ?_, ?_, ?_⟩
    · rw [recordDelete_synsetRelations, deleteSynsetRelationRows_rels, hrels1,
        List.filter_append, filter_not_match_eq_self hnofwd]
      simp
    · rw [recordDelete_senseRelations, deleteSynsetRelationRows_senseRelations,
        hst1, recordCreate_senseRelations, hstIns,
        insertSynsetRelation_senseRelations,
        getOrCreateRelationType_senseRelations]
    · rw [recordDelete_senseSynsetRelations,
        deleteSynsetRelationRows_senseSynsetRelations,
        hst1, recordCreate_senseSynsetRelations, hstIns,
        insertSynsetRelation_senseSynsetRelations,
        getOrCreateRelationType_senseSynsetRelations]
  · -- with a catalog inverse
    set stIns := insertSynsetRelation (getOrCreateRelationType st R)
      ra.lex ra.rowid rb.rowid R meta with hstIns
    set stRec := recordCreate stIns "relation"
      (A ++ "->" ++ R ++ "->" ++ B) none with hstRec
    set stTy2 := getOrCreateRelationType stRec inv with hstTy2
    set st1 := insertSynsetRelation stTy2 rb.lex rb.rowid ra.rowid inv none
      with hst1
    have hrelsIns : stIns.synsetRelations =
        st.synsetRelations ++ [⟨st.nextRowid, ra.lex, ra.rowid, rb.rowid, R, meta⟩] := by
      rw [hstIns]
      rw [insertSynsetRelation_rels_of_absent]
      · rw [getOrCreateRelationType_synsetRelations,
          getOrCreateRelationType_nextRowid]
      · rw [getOrCreateRelationType_synsetRelations]
        exact hnofwd
    have habsent2 : ∀ r ∈ stTy2.synsetRelations,
        ¬(r.src = rb.rowid ∧ r.tgt = ra.rowid ∧ r.typ = inv) := by
      intro r hr
      rw [hstTy2, getOrCreateRelationType_synsetRelations, hstRec,
        recordCreate_synsetRelations, hrelsIns] at hr
      rcases List.mem_append.mp hr with hold | hnew
      · exact hnoinv inv hinvCase r hold
      · rw [List.mem_singleton] at hnew
        rw [hnew]
        intro hmatch
        exact hrowne hmatch.1
    have hrels1 : st1.synsetRelations =
        (st.synsetRelations ++ [⟨st.nextRowid, ra.lex, ra.rowid, rb.rowid, R, meta⟩])
          ++ [⟨stTy2.nextRowid, rb.lex, rb.rowid, ra.rowid, inv, none⟩] := by
      rw [hst1, insertSynsetRelation_rels_of_absent _ _ _ _ _ _ habsent2,
        hstTy2, getOrCreateRelationType_synsetRelations, hstRec,
        recordCreate_synsetRelations, hrelsIns]
    have hsyn1 : st1.synsets = st.synsets := by
      rw [hst1, insertSynsetRelation_synsets, hstTy2,
        getOrCreateRelationType_synsets, hstRec, recordCreate_synsets, hstIns,
        insertSynsetRelation_synsets, getOrCreateRelationType_synsets]
    have htyR : st1.relationTypes.contains R = true := by
      rw [hst1, insertSynsetRelation_relationTypes, hstTy2]
      apply getOrCreateRelationType_contains_mono
      rw [hstRec, recordCreate_relationTypes, hstIns,
        insertSynsetRelation_relationTypes]
      exact getOrCreateRelationType_contains st R
    have htyInv : st1.relationTypes.contains inv = true := by
      rw [hst1, insertSynsetRelation_relationTypes, hstTy2]
      exact getOrCreateRelationType_contains stRec inv
    have hA1 : getSynsetRow st1 A = some ra := by
      rw [getSynsetRow_congr hsyn1]; exact hA
    have hB1 : getSynsetRow st1 B = some rb := by
      rw [getSynsetRow_congr hsyn1]; exact hB
    simp only [removeSynsetRelation, hA1, hB1, htyR, Bool.not_true,
      Bool.false_eq_true, if_false, if_true, hinvCase]
    have htyInv2 : (recordDelete
        (deleteSynsetRelationRows st1 ra.rowid rb.rowid R) "relation"
        (A ++ "->" ++ R ++ "->" ++ B) none).relationTypes.contains inv = true := by
      rw [recordDelete_relationTypes, deleteSynsetRelationRows_relationTypes]
      exact htyInv
    simp only [htyInv2, if_true]
    refine ⟨trivial, ?_, ?_, ?_⟩
    · have h1 : ([(⟨st.nextRowid, ra.lex, ra.rowid, rb.rowid, R, meta⟩ : RelRow)].filter
          (fun r => !(r.src == ra.rowid && r.tgt == rb.rowid && r.typ == R))) = [] := by
        simp
      have hf : (rb.rowid == ra.rowid) = false := by
        simpa using hrowne.symm
      have h2 : ([(⟨stTy2.nextRowid, rb.lex, rb.rowid, ra.rowid, inv, none⟩ : RelRow)].filter
          (fun r => !(r.src == ra.rowid && r.tgt == rb.rowid && r.typ == R)))
          = [⟨stTy2.nextRowid, rb.lex, rb.rowid, ra.rowid, inv, none⟩] := by
        simp [hf]
      have hinner : st1.synsetRelations.filter
          (fun r => !(r.src == ra.rowid && r.tgt == rb.rowid && r.typ == R)) =
          st.synsetRelations ++ [⟨stTy2.nextRowid, rb.lex, rb.rowid, ra.rowid, inv, none⟩] := by
        rw [hrels1, List.filter_append, List.filter_append,
          filter_not_match_eq_self hnofwd, h1, h2, List.append_nil]
      rw [deleteSynsetRelationRows_rels, recordDelete_synsetRelations,
        deleteSynsetRelationRows_rels, hinner, List.filter_append,
        filter_not_match_eq_self (hnoinv inv hinvCase)]
      simp
    · rw [deleteSynsetRelationRows_senseRelations, recordDelete_senseRelations,
        deleteSynsetRelationRows_senseRelations,
        hst1, insertSynsetRelation_senseRelations, hstTy2,
        getOrCreateRelationType_senseRelations, hstRec,
        recordCreate_senseRelations, hstIns,
        insertSynsetRelation_senseRelations,
        getOrCreateRelationType_senseRelations]
    · rw [deleteSynsetRelationRows_senseSynsetRelations,
        recordDelete_senseSynsetRelations,
        deleteSynsetRelationRows_senseSynsetRelations,
        hst1, insertSynsetRelation_senseSynsetRelations, hstTy2,
        getOrCreateRelationType_senseSynsetRelations, hstRec,
        recordCreate_senseSynsetRelations, hstIns,
        insertSynsetRelation_senseSynsetRelations,
        getOrCreateRelationType_senseSynsetRelations]

/-- Witness for C8: a concrete add followed by remove restores the empty
relation table. -/
theorem claim8_witness :
    (addSynsetRelation c8Store "awn-00000001-n" "hypernym"
        "awn-00000002-n" true none).2 = none ∧
    (removeSynsetRelation (addSynsetRelation c8Store "awn-00000001-n"
        "hypernym" "awn-00000002-n" true none).1 "awn-00000001-n" "hypernym"
        "awn-00000002-n" true).1.synsetRelations = c8Store.synsetRelations := by
  have h := claim8_add_remove_noop c8Store "awn-00000001-n" "hypernym"
    "awn-00000002-n" ⟨1, "awn-00000001-n", 1, none, "n", none⟩
    ⟨2, "awn-00000002-n", 1, none, "n", none⟩ none
    (by decide) rfl rfl (by decide) (by decide)
    (by simp [c8Store, Store.empty]) (by simp [c8Store, Store.empty])
  exact ⟨h.1, h.2.1⟩

/-- The rank-update loop writes, for each sense id occurring in the list,
the position of its last occurrence (offset by the starting rank). -/
theorem reorderLoop_eq (order : List String) :
    ∀ (rank : Nat) (ss : List SenseRow),
      reorderLoop rank order ss = ss.map (fun r =>
        match lastRank order r.id with
        | some k => { r with entryRank := rank + k - 1 }
        | none => r) := by
  induction order with
  | nil =>
    intro rank ss
    simp [reorderLoop, lastRank]
  | cons x xs ih =>
    intro rank ss
    rw [reorderLoop, ih, List.map_map]
    apply List.map_congr_left
    intro r _
    simp only [Function.comp_apply]
    cases hb : (r.id == x) with
    | false =>
      have hxr : (x == r.id) = false := by
        refine beq_eq_false_iff_ne.mpr ?_
        intro he
        exact (beq_eq_false_iff_ne.mp hb) he.symm
      rcases hlr : lastRank xs r.id with _ | k
      · simp [hb, lastRank, hlr, hxr]
      · have e1 : rank + 1 + k - 1 = rank + k := by omega
        have e2 : rank + (k + 1) - 1 = rank + k := by omega
        simp [hb, lastRank, hlr, hxr, e1, e2]
    | true =>
      have hxr : (x == r.id) = true := by
        have he := eq_of_beq hb
        simp [he]
      rcases hlr : lastRank xs r.id with _ | k
      · simp [hb, lastRank, hlr, hxr, Nat.add_sub_cancel]
      · have e1 : rank + 1 + k - 1 = rank + k := by omega
        have e2 : rank + (k + 1) - 1 = rank + k := by omega
        simp [hb, lastRank, hlr, hxr, e1, e2]

/-- C10: reorder_senses accepts any list whose set of ids equals the set
of the entry's current sense ids, duplicates included; every sense row
then receives the rank of the last occurrence of its id in the list, so
later occurrences overwrite earlier ones and the final ranks can skip
rank 1. -/
theorem claim10_reorder_senses_duplicates
    (st : Store) (entryId : String) (entryRow : EntryRow) (order : List String)
    (hE : getEntryRow st entryId = some entryRow)
    (hset : (order.all (fun x => (((st.senses.filter
          (fun r => r.entry == entryRow.rowid)).map (fun r => r.id)).contains x)) &&
        ((st.senses.filter (fun r => r.entry == entryRow.rowid)).map
          (fun r => r.id)).all (fun x => order.contains x)) = true) :
    reorderSenses st entryId order =
      ({ st with senses := (st.senses.map (fun r =>
          match lastRank order r.id with
          | some k => { r with entryRank := k }
          | none => r)) }, none) := by
  have hmap : reorderLoop 1 order st.senses = st.senses.map (fun r =>
      match lastRank order r.id with
      | some k => { r with entryRank := k }
      | none => r) := by
    rw [reorderLoop_eq]
    apply List.map_congr_left
    intro r _
    rcases hlr : lastRank order r.id with _ | k
    · simp only [hlr]
    · simp only [hlr]
      have : 1 + k - 1 = k := by omega
      rw [this]
  simp only [reorderSenses, hE, hset, Bool.not_true, Bool.false_eq_true,
    if_false, hmap]

/-- Witness for C10: the order list [a, a, b] is accepted although it
duplicates a, and the final ranks are a at 2 and b at 3 with no rank 1. -/
theorem claim10_witness :
    (reorderSenses c10Store "awn-dog-n" ["a", "a", "b"]).2 = none ∧
    ((reorderSenses c10Store "awn-dog-n" ["a", "a", "b"]).1.senses.map
      (fun r => (r.id, r.entryRank))) = [("a", 2), ("b", 3)] := by
  have h := claim10_reorder_senses_duplicates c10Store "awn-dog-n"
    ⟨20, "awn-dog-n", 1, "n", none⟩ ["a", "a", "b"] rfl (by decide)
  constructor
  · rw [h]
  · rw [h]
    rfl

/-- C6: for a synset with no ILI and no proposed-ILI binding, propose_ili
with a 19-character definition raises ValidationError and leaves the
store unchanged, while a 20-character definition succeeds and records
the proposed ILI for the synset; create_synset with ili "in" behaves the
same way on its ili_definition argument. -/
theorem claim6_ili_length_boundary
    (st : Store) (sid : String) (row : SynsetRow) (d19 d20 : String)
    (meta : Option String)
    (hS : getSynsetRow st sid = some row) (hili : row.ili = none)
    (hnoprop : ∀ p ∈ st.proposedIlis, p.synset ≠ row.rowid)
    (h19 : d19.length = 19) (h20 : d20.length = 20) :
    (proposeIli st sid d19 meta =
      (st, some (Err.validation "ILI definition must be at least 20 characters"))) ∧
    ((proposeIli st sid d20 meta).2 = none ∧
      ∃ p ∈ (proposeIli st sid d20 meta).1.proposedIlis,
        p.synset = row.rowid ∧ p.text = d20) ∧
    (∀ (lexId pos defn : String) (lexRowid : Nat) (st2 : Store),
      validPos.contains pos = true →
      getLexiconRowid st2 lexId = some lexRowid →
      getSynsetRow st2 (generateSynsetId st2 lexId lexRowid pos) = none →
      (createSynset st2 lexId pos defn none (some "in") (some d19) true meta =
        (st2, some (Err.validation "ILI definition must be at least 20 characters"))) ∧
      ((createSynset st2 lexId pos defn none (some "in") (some d20) true meta).2
          = none ∧
        ∃ srow ∈ (createSynset st2 lexId pos defn none (some "in") (some d20)
            true meta).1.synsets,
          srow.id = generateSynsetId st2 lexId lexRowid pos ∧
          ∃ p ∈ (createSynset st2 lexId pos defn none (some "in") (some d20)
              true meta).1.proposedIlis,
            p.synset = srow.rowid ∧ p.text = d20)) := by
  have hlt19 : d19.length < 20 := by omega
  have hge20 : ¬(d20.length < 20) := by omega
  have hany : (st.proposedIlis.any (fun p => p.synset == row.rowid)) = false := by
    rw [List.any_eq_false]
    intro p hp
    simpa using hnoprop p hp
  refine ⟨?_, ⟨?_, ?_⟩, ?_⟩
  · simp [proposeIli, hS, hili, hlt19]
  · simp [proposeIli, hS, hili, hge20, hany]
  · refine ⟨⟨st.nextRowid, row.rowid, d20, meta⟩, ?_, rfl, rfl⟩
    simp [proposeIli, hS, hili, hge20, hany, recordCreate]
  · intro lexId pos defn lexRowid st2 hpos hlex hfresh
    have hposm : pos ∈ validPos := List.mem_of_elem_eq_true hpos
    refine ⟨?_, ?_, ?_⟩
    · simp [createSynset, hposm, hlex, hfresh, hlt19]
    · simp [createSynset, hposm, hlex, hfresh, hge20]
    · refine ⟨⟨st2.nextRowid, generateSynsetId st2 lexId lexRowid pos,
        lexRowid, none, pos, meta⟩, ?_, rfl, ?_⟩
      · simp [createSynset, hposm, hlex, hfresh, hge20, recordCreate]
      · refine ⟨⟨st2.nextRowid + 1, st2.nextRowid, d20, none⟩, ?_, rfl, rfl⟩
        simp [createSynset, hposm, hlex, hfresh, hge20, recordCreate]

/-- Witness for C6: a 19-character proposal fails, a 20-character one
succeeds, on a concrete synset. -/
theorem claim6_witness :
    proposeIli c6Store "awn-00000001-n" "1234567890123456789" none =
      (c6Store, some (Err.validation "ILI definition must be at least 20 characters")) ∧
    (proposeIli c6Store "awn-00000001-n" "12345678901234567890" none).2 = none := by
  have h := claim6_ili_length_boundary c6Store "awn-00000001-n"
    ⟨5, "awn-00000001-n", 1, none, "n", none⟩ "1234567890123456789"
    "12345678901234567890" none rfl rfl (by simp [c6Store, Store.empty])
    rfl rfl
  exact ⟨h.1, h.2.1.1⟩
theorem length_filter_le_of_imp {α : Type} (p q : α → Bool) (l : List α)
    (h : ∀ a ∈ l, p a = true → q a = true) :
    (l.filter p).length ≤ (l.filter q).length := by
  induction l with
  | nil => simp
  | cons x tl ih =>
    have ih' := ih (fun a ha => h a (List.mem_cons_of_mem x ha))
    cases hp : p x
    · cases hq : q x
      · simpa [List.filter_cons, hp, hq] using ih'
      · simp only [List.filter_cons, hp, hq, Bool.false_eq_true, if_false,
          if_true]
        calc (List.filter p tl).length ≤ (List.filter q tl).length := ih'
        _ ≤ (x :: List.filter q tl).length := by simp
    · have hq := h x (List.mem_cons_self x tl) hp
      simp only [List.filter_cons, hp, hq]
      simpa using ih'

theorem length_filter_succ_lt {s : List Nat} {n : Nat} (h : n ∈ s) :
    (s.filter (fun m => decide (n + 1 ≤ m))).length <
      (s.filter (fun m => decide (n ≤ m))).length := by
  induction s with
  | nil => cases h
  | cons x tl ih =>
    have hmono : ∀ a ∈ tl, decide (n + 1 ≤ a) = true → decide (n ≤ a) = true := by
      intro a _ ha
      simp only [decide_eq_true_eq] at ha ⊢
      omega
    rcases List.mem_cons.mp h with rfl | hmem
    · have hp : decide (n + 1 ≤ n) = false := by simp
      have hq : decide (n ≤ n) = true := by simp
      simp only [List.filter_cons, hp, hq, Bool.false_eq_true, if_false, if_true]
      calc (List.filter (fun m => decide (n + 1 ≤ m)) tl).length
          ≤ (List.filter (fun m => decide (n ≤ m)) tl).length :=
            length_filter_le_of_imp _ _ tl hmono
        _ < (n :: List.filter (fun m => decide (n ≤ m)) tl).length := by simp
    · by_cases hx1 : n + 1 ≤ x
      · have hq : decide (n ≤ x) = true := by
          simp only [decide_eq_true_eq]; omega
        have hp : decide (n + 1 ≤ x) = true := by
          simpa using hx1
        simp only [List.filter_cons, hp, hq, if_true]
        simpa using ih hmem
      · by_cases hx2 : n ≤ x
        · have hp : decide (n + 1 ≤ x) = false := by simpa using hx1
          have hq : decide (n ≤ x) = true := by simpa using hx2
          simp only [List.filter_cons, hp, hq, Bool.false_eq_true, if_false,
            if_true]
          calc (List.filter (fun m => decide (n + 1 ≤ m)) tl).length
              < (List.filter (fun m => decide (n ≤ m)) tl).length := ih hmem
            _ ≤ (x :: List.filter (fun m => decide (n ≤ m)) tl).length := by
                simp
        · have hp : decide (n + 1 ≤ x) = false := by simpa using hx1
          have hq : decide (n ≤ x) = false := by simpa using hx2
          simp only [List.filter_cons, hp, hq, Bool.false_eq_true, if_false]
          exact ih hmem

/-- The fuel-bounded upward walk of _generate_entry_id returns the least
free value at least its starting point, whenever the fuel exceeds the
number of list members at or above the start. -/
theorem firstFreeAux_spec (s : List Nat) :
    ∀ (fuel n : Nat),
      (s.filter (fun m => decide (n ≤ m))).length < fuel →
      (firstFreeAux fuel s n ∉ s ∧ n ≤ firstFreeAux fuel s n ∧
        ∀ m, n ≤ m → m < firstFreeAux fuel s n → m ∈ s) := by
  intro fuel
  induction fuel with
  | zero =>
    intro n h
    omega
  | succ fuel ih =>
    intro n h
    rw [firstFreeAux]
    by_cases hc : n ∈ s
    · have hcb : s.contains n = true := List.elem_eq_true_of_mem hc
      rw [if_pos hcb]
      have hfuel : (s.filter (fun m => decide (n + 1 ≤ m))).length < fuel := by
        have := length_filter_succ_lt hc
        omega
      obtain ⟨h1, h2, h3⟩ := ih (n + 1) hfuel
      refine ⟨h1, by omega, ?_⟩
      intro m hm1 hm2
      by_cases hmn : m = n
      · exact hmn ▸ hc
      · exact h3 m (by omega) hm2
    · have hcb : s.contains n = false := by
        cases hcb : s.contains n
        · rfl
        · exact absurd (List.mem_of_elem_eq_true hcb) hc
      rw [hcb]
      simp only [Bool.false_eq_true, if_false]
      exact ⟨hc, Nat.le_refl n, fun m hm1 hm2 => absurd (Nat.lt_of_le_of_lt hm1 hm2)
        (Nat.lt_irrefl n)⟩

/-- Unfolding equation of likeChars on the empty pattern. -/
theorem likeChars_nil (s : List Char) : likeChars [] s = s.isEmpty := by
  rw [likeChars.eq_def]

/-- Unfolding equation of likeChars on a pattern with a head character. -/
theorem likeChars_cons (c : Char) (p s : List Char) :
    likeChars (c :: p) s =
      (if c = '%' then
        (List.range (s.length + 1)).any (fun k => likeChars p (s.drop k))
      else if c = '_' then
        match s with
        | [] => false
        | _ :: t => likeChars p t
      else if c = '\\' then
        match p with
        | [] => false
        | e :: p' =>
          match s with
          | [] => false
          | d :: t => d == e && likeChars p' t
      else
        match s with
        | [] => false
        | d :: t => d == c && likeChars p t) := by
  rw [likeChars.eq_def]

/-- A lone percent wildcard matches every string. -/
theorem likeChars_percent (s : List Char) : likeChars ['%'] s = true := by
  rw [likeChars_cons, if_pos rfl]
  apply List.any_eq_true.mpr
  refine ⟨s.length, by simp, ?_⟩
  simp [likeChars_nil, List.drop_length]

/-- An escaped character at the head of the LIKE pattern matches exactly
that literal character. -/
theorem likeChars_lit (c : Char) (p : List Char) (s : List Char) :
    likeChars (escapeLikeChar c ++ p) s =
      (match s with
        | [] => false
        | d :: t => d == c && likeChars p t) := by
  unfold escapeLikeChar
  by_cases h : (c == '\\' || c == '_' || c == '%') = true
  · rw [if_pos h]
    show likeChars ('\\' :: c :: p) s = _
    rw [likeChars_cons]
    rw [if_neg (by decide), if_neg (by decide), if_pos rfl]
  · rw [if_neg h]
    show likeChars (c :: p) s = _
    simp only [Bool.or_eq_true, beq_iff_eq] at h
    push_neg at h
    rw [likeChars_cons]
    rw [if_neg h.2, if_neg h.1.2, if_neg h.1.1]

/-- Characterization of the boolean list prefix test. -/
theorem isPrefixOf_iff_append {l s : List Char} :
    l.isPrefixOf s = true ↔ ∃ t, s = l ++ t := by
  induction l generalizing s with
  | nil => simp [List.isPrefixOf]
  | cons c cs ih =>
    cases s with
    | nil => simp [List.isPrefixOf]
    | cons d t =>
      simp only [List.isPrefixOf, Bool.and_eq_true, beq_iff_eq, ih,
        List.cons_append, List.cons.injEq]
      constructor
      · rintro ⟨hc, t', ht⟩
        exact ⟨t', hc.symm, ht⟩
      · rintro ⟨t', hc, ht⟩
        exact ⟨hc.symm, t', ht⟩

/-- The escaped LIKE pattern of _generate_entry_id matches exactly the
strings that literally extend the base id by a dash: the escaping makes
underscore and percent in the base non-wildcards. -/
theorem likeChars_escape_iff (base : List Char) :
    ∀ s : List Char,
      likeChars ((base.map escapeLikeChar).flatten ++ ['-', '%']) s = true ↔
        ∃ t, s = base ++ '-' :: t := by
  induction base with
  | nil =>
    intro s
    simp only [List.map_nil, List.flatten_nil, List.nil_append]
    cases s with
    | nil =>
      rw [likeChars_cons]
      rw [if_neg (by decide), if_neg (by decide), if_neg (by decide)]
      simp
    | cons d t =>
      rw [likeChars_cons]
      rw [if_neg (by decide), if_neg (by decide), if_neg (by decide)]
      simp only [likeChars_percent, Bool.and_true, beq_iff_eq]
      constructor
      · intro hd
        exact ⟨t, by rw [hd]⟩
      · rintro ⟨t', ht⟩
        simp only [List.nil_append, List.cons.injEq] at ht
        exact ht.1
  | cons c cs ih =>
    intro s
    simp only [List.map_cons, List.flatten_cons, List.append_assoc]
    rw [likeChars_lit]
    cases s with
    | nil =>
      simp
    | cons d t =>
      simp only [Bool.and_eq_true, beq_iff_eq, ih t]
      constructor
      · rintro ⟨hd, t', ht⟩
        exact ⟨t', by rw [hd, ht]; simp⟩
      · rintro ⟨t', ht⟩
        simp only [List.cons_append, List.cons.injEq] at ht
        exact ⟨ht.1, t', ht.2⟩

/-- C7: when the normalized base id is taken, the generated entry id is
base-n for the smallest n at least 2 that is not among the existing
sibling suffixes, refilling gaps left by deletions; the LIKE pattern is
escaped so that it matches exactly the literal extensions of the base
(so ids like foo_bar and foo-bar never cross-match), and the suffix
collection therefore equals a plain prefix-test collection. -/
theorem claim7_entry_id_gap_filling
    (st : Store) (lexId lemmaText pos base : String)
    (hbase : base = lexId ++ "-" ++ normalizeLemma lemmaText ++ "-" ++ pos)
    (hocc : (getEntryRow st base).isSome = true) :
    (∃ n, generateEntryId st lexId lemmaText pos = base ++ "-" ++ toString n ∧
      2 ≤ n ∧ n ∉ entrySuffixes st base ∧
      ∀ m, 2 ≤ m → m < n → m ∈ entrySuffixes st base) ∧
    (∀ (b : String) (s : List Char),
      likeChars (escapeLike b ++ ['-', '%']) s = true ↔
        ∃ t, s = b.data ++ '-' :: t) ∧
    (∀ b : String, entrySuffixes st b =
      (st.entries.filter
        (fun r => (b ++ "-").data.isPrefixOf r.id.data)).filterMap
        (fun r =>
          if digitsOnly (r.id.drop (b.length + 1))
          then some (digitsToNat (r.id.drop (b.length + 1))) else none)) := by
  have hesc : ∀ (b : String) (s : List Char),
      likeChars (escapeLike b ++ ['-', '%']) s = true ↔
        ∃ t, s = b.data ++ '-' :: t := by
    intro b s
    exact likeChars_escape_iff b.data s
  refine ⟨?_, hesc, ?_⟩
  · have hNone : (getEntryRow st base).isNone = false := by
      rcases h : getEntryRow st base with _ | r
      · rw [h] at hocc
        cases hocc
      · rfl
    have hspec := firstFreeAux_spec (entrySuffixes st base)
      ((entrySuffixes st base).length + 1) 2
      (by
        have := List.length_filter_le (fun m => decide (2 ≤ m))
          (entrySuffixes st base)
        omega)
    refine ⟨firstFreeAux ((entrySuffixes st base).length + 1)
      (entrySuffixes st base) 2, ?_, hspec.2.1, hspec.1, hspec.2.2⟩
    simp only [generateEntryId, ← hbase, hNone, Bool.false_eq_true, if_false]
  · intro b
    have hfl : ∀ r : EntryRow,
        likeChars (escapeLike b ++ ['-', '%']) r.id.data =
          (b ++ "-").data.isPrefixOf r.id.data := by
      intro r
      rw [Bool.eq_iff_iff, hesc b, isPrefixOf_iff_append]
      have hdata : (b ++ "-").data = b.data ++ ['-'] := by
        simp [String.data_append]
      rw [hdata]
      constructor
      · rintro ⟨t, ht⟩
        exact ⟨t, by rw [ht]; simp⟩
      · rintro ⟨t, ht⟩
        exact ⟨t, by rw [ht]; simp⟩
    simp only [entrySuffixes, hfl]
    congr 1
    exact List.filter_eq_self.mpr (fun a ha => (List.mem_filter.mp ha).2)

/-- C7 witness: with awn-cat-n, awn-cat-n-2 and awn-cat-n-4 present, the
generated id fills the gap as awn-cat-n-3; and the escaped pattern for
base foo_bar does not match foo-bar-2, though an unescaped underscore
wildcard would. -/
theorem claim7_witness :
    ("awn-cat-n" = "awn" ++ "-" ++ normalizeLemma "cat" ++ "-" ++ "n" ∧
      (getEntryRow c7Store "awn-cat-n").isSome = true) ∧
    (∃ n, generateEntryId c7Store "awn" "cat" "n" = "awn-cat-n" ++ "-" ++ toString n ∧
      2 ≤ n ∧ n ∉ entrySuffixes c7Store "awn-cat-n" ∧
      ∀ m, 2 ≤ m → m < n → m ∈ entrySuffixes c7Store "awn-cat-n") ∧
    generateEntryId c7Store "awn" "cat" "n" = "awn-cat-n-3" ∧
    likeChars (escapeLike "foo_bar" ++ ['-', '%']) "foo-bar-2".data = false ∧
    likeChars ("foo_bar".data ++ ['-', '%']) "foo-bar-2".data = true :=
  ⟨⟨by decide, by decide⟩,
   (claim7_entry_id_gap_filling c7Store "awn" "cat" "n" "awn-cat-n"
      (by decide) (by decide)).1,
   by decide, by decide, by decide⟩

mutual

/-- While a batch is active (inBatch with positive depth), running any
statement leaves the committed snapshot, the inBatch flag and the depth
unchanged: nothing inside a batch commits. -/
theorem runStmt_preserve (c : Stmt) (s : EState)
    (hb : s.inBatch = true) (hd : 1 ≤ s.depth) :
    (runStmt c s).1.committed = s.committed ∧
      (runStmt c s).1.inBatch = true ∧ (runStmt c s).1.depth = s.depth := by
  cases c with
  | op f =>
    simp [runStmt, hb]
  | batch body =>
    have h1 : (s.depth + 1 == 1) = false := by
      rw [beq_eq_false_iff_ne]
      omega
    have hrec := runList_preserve body
      { s with
          depth := s.depth + 1 }
      hb (Nat.succ_le_succ (Nat.zero_le _))
    have hd3 : (runList body
        { s with
            depth := s.depth + 1 }).1.depth = s.depth + 1 := hrec.2.2
    simp only [runStmt, h1, Bool.false_eq_true, if_false]
    rcases hr : (runList body
      { s with
          depth := s.depth + 1 }).2 with _ | err
    · have h2 : ((runList body
          { s with
              depth := s.depth + 1 }).1.depth - 1 == 0) = false := by
        rw [hd3, beq_eq_false_iff_ne]
        omega
      simp only [hr, h2, Bool.false_eq_true, if_false]
      refine ⟨hrec.1, hrec.2.1, ?_⟩
      rw [hd3]
      omega
    · have h2 : ((runList body
          { s with
              depth := s.depth + 1 }).1.depth == 1) = false := by
        rw [hd3, beq_eq_false_iff_ne]
        omega
      simp only [hr, h2, Bool.false_eq_true, if_false]
      refine ⟨hrec.1, hrec.2.1, ?_⟩
      rw [hd3]
      omega

/-- List version of runStmt_preserve. -/
theorem runList_preserve (l : List Stmt) (s : EState)
    (hb : s.inBatch = true) (hd : 1 ≤ s.depth) :
    (runList l s).1.committed = s.committed ∧
      (runList l s).1.inBatch = true ∧ (runList l s).1.depth = s.depth := by
  cases l with
  | nil =>
    simp [runList, hb]
  | cons c rest =>
    have h1 := runStmt_preserve c s hb hd
    rcases hr : (runStmt c s).2 with _ | e
    · simp only [runList, hr]
      have h2 := runList_preserve rest (runStmt c s).1
        h1.2.1 (h1.2.2 ▸ hd)
      exact ⟨h2.1.trans h1.1, h2.2.1, h2.2.2.trans h1.2.2⟩
    · simp only [runList, hr]
      exact h1

end

/-- C2: if an error escapes an outermost batch scope, the whole store —
all entity tables and the edit-history log alike — is restored to the
state at batch entry and the error is re-raised; while in batch a
mutation method runs with its per-call transaction suppressed (its
writes are neither committed nor rolled back at call boundary, unlike
outside a batch, where success commits and an error rolls back the
call); and a nested batch scope that exits normally commits nothing. -/
theorem claim2_batch_rollback
    (s : EState) (f : Store → Store × Option Err) (body : List Stmt) (e : Err)
    (hnb : s.inBatch = false) (hd0 : s.depth = 0) :
    ((runList body
        { s with
            depth := 1,
            inBatch := true,
            committed := s.store }).2 = some e →
      runStmt (.batch body) s = (⟨s.store, s.store, false, 0⟩, some e) ∧
      (runStmt (.batch body) s).1.store.editHistory = s.store.editHistory) ∧
    (∀ s' : EState, s'.inBatch = true →
      runStmt (.op f) s' =
        ({ s' with
            store := (f s'.store).1 }, (f s'.store).2)) ∧
    (∀ s' : EState, s'.inBatch = false →
      ((f s'.store).2 = none →
        runStmt (.op f) s' =
          ({ s' with
              store := (f s'.store).1,
              committed := (f s'.store).1 }, none)) ∧
      (∀ e', (f s'.store).2 = some e' →
        runStmt (.op f) s' =
          ({ s' with
              store := s'.committed }, some e'))) ∧
    (∀ s' : EState, s'.inBatch = true → 1 ≤ s'.depth →
      (runList body
          { s' with
              depth := s'.depth + 1 }).2 = none →
      runStmt (.batch body) s' =
        ({ (runList body
            { s' with
                depth := s'.depth + 1 }).1 with
            depth := s'.depth }, none) ∧
      (runStmt (.batch body) s').1.committed = s'.committed) := by
  refine ⟨?_, ?_, ?_, ?_⟩
  · intro hrun
    have h1 : (s.depth + 1 == 1) = true := by
      rw [hd0]
      rfl
    have hseq : ({ s with
        depth := s.depth + 1,
        inBatch := true,
        committed := s.store } : EState) =
        { s with
            depth := 1,
            inBatch := true,
            committed := s.store } := by
      rw [hd0]
    have hpre := runList_preserve body
      { s with
          depth := 1,
          inBatch := true,
          committed := s.store }
      rfl (le_refl 1)
    have hc : (runList body
        { s with
            depth := 1,
            inBatch := true,
            committed := s.store }).1.committed = s.store := hpre.1
    have hdp : (runList body
        { s with
            depth := 1,
            inBatch := true,
            committed := s.store }).1.depth = 1 := hpre.2.2
    have heq : runStmt (.batch body) s = (⟨s.store, s.store, false, 0⟩, some e) := by
      simp only [runStmt, h1, if_true, hseq, hrun, hdp, hc]
      simp
    exact ⟨heq, by rw [heq]⟩
  · intro s' hb'
    simp [runStmt, hb']
  · intro s' hnb'
    constructor
    · intro h0
      simp [runStmt, hnb', h0]
    · intro e' h0
      simp [runStmt, hnb', h0]
  · intro s' hb' hd' hnone
    have h1 : (s'.depth + 1 == 1) = false := by
      rw [beq_eq_false_iff_ne]
      omega
    have hpre := runList_preserve body
      { s' with
          depth := s'.depth + 1 }
      hb' (Nat.succ_le_succ (Nat.zero_le _))
    have hd3 : (runList body
        { s' with
            depth := s'.depth + 1 }).1.depth = s'.depth + 1 := hpre.2.2
    have h2 : (s'.depth + 1 - 1 == 0) = false := by
      rw [beq_eq_false_iff_ne]
      omega
    have heq : runStmt (.batch body) s' =
        ({ (runList body
            { s' with
                depth := s'.depth + 1 }).1 with
            depth := s'.depth }, none) := by
      simp only [runStmt, h1, Bool.false_eq_true, if_false, hnone, h2, hd3]
      rfl
    exact ⟨heq, by rw [heq]; exact hpre.1⟩

/-- C2 witness: a batch of one history-writing op followed by a failing
op errors with a non-empty mid-batch history, yet the batch as a whole
returns the untouched empty store with no history rows and re-raises. -/
theorem claim2_witness :
    c2S0.inBatch = false ∧ c2S0.depth = 0 ∧
    (runList c2Body
      { c2S0 with
          depth := 1,
          inBatch := true,
          committed := c2S0.store }).2 = some (Err.validation "boom") ∧
    (runList c2Body
      { c2S0 with
          depth := 1,
          inBatch := true,
          committed := c2S0.store }).1.store.editHistory ≠ [] ∧
    runStmt (.batch c2Body) c2S0 =
      (⟨Store.empty, Store.empty, false, 0⟩, some (Err.validation "boom")) ∧
    (runStmt (.batch c2Body) c2S0).1.store.editHistory = [] := by
  have h := (claim2_batch_rollback c2S0 c2Good c2Body (Err.validation "boom")
    rfl rfl).1 (by rfl)
  exact ⟨rfl, rfl, by rfl, by simp [runList, runStmt, c2Body, c2Good, c2Bad, c2S0,
    recordCreate, Store.empty], h.1, by rw [h.1]; rfl⟩

/-- Nothing survives a filter that excludes itself. -/
theorem not_mem_filter_ne_self (l : List Nat) (a : Nat) :
    a ∉ l.filter (fun x => x != a) := by
  intro h
  have := (List.mem_filter.mp h).2
  simp at this

/-- Filtering cannot introduce members. -/
theorem not_mem_filter_of_not_mem {α : Type} (p : α → Bool) {l : List α} {a : α}
    (h : a ∉ l) : a ∉ l.filter p :=
  fun hm => h (List.mem_of_mem_filter hm)

/-- The sense-transfer loop never touches the unlexicalized-synset
marks. -/
theorem mergeSensesLoop_unlexSynsets (t : Nat) (l : List SenseRow) (st : Store) :
    (mergeSensesLoop t l st).unlexSynsets = st.unlexSynsets := by
  induction l generalizing st with
  | nil => rfl
  | cons s rest ih =>
    rw [mergeSensesLoop]
    split
    · rw [ih]
      rfl
    · rw [ih]

/-- The sense-transfer loop never touches the synsets table. -/
theorem mergeSensesLoop_synsets (t : Nat) (l : List SenseRow) (st : Store) :
    (mergeSensesLoop t l st).synsets = st.synsets := by
  induction l generalizing st with
  | nil => rfl
  | cons s rest ih =>
    rw [mergeSensesLoop]
    split
    · rw [ih]
      rfl
    · rw [ih]

/-- The sense-transfer loop never touches the synset relations. -/
theorem mergeSensesLoop_synsetRelations (t : Nat) (l : List SenseRow) (st : Store) :
    (mergeSensesLoop t l st).synsetRelations = st.synsetRelations := by
  induction l generalizing st with
  | nil => rfl
  | cons s rest ih =>
    rw [mergeSensesLoop]
    split
    · rw [ih]
      rfl
    · rw [ih]

/-- Provenance through the sense-transfer loop: every surviving sense
row either points at the merge target or keeps the synset of an input
row. -/
theorem mergeSensesLoop_senses_prov (t : Nat) (l : List SenseRow) (st : Store) :
    ∀ r ∈ (mergeSensesLoop t l st).senses,
      r.synset = t ∨ ∃ r0 ∈ st.senses, r.synset = r0.synset := by
  induction l generalizing st with
  | nil =>
    intro r hr
    exact Or.inr ⟨r, hr, rfl⟩
  | cons s rest ih =>
    intro r hr
    rw [mergeSensesLoop] at hr
    split at hr
    · rcases ih _ r hr with h | ⟨r0, hr0, he⟩
      · exact Or.inl h
      · exact Or.inr ⟨r0, List.mem_of_mem_filter hr0, he⟩
    · rcases ih _ r hr with h | ⟨r0, hr0, he⟩
      · exact Or.inl h
      · rcases List.mem_map.mp hr0 with ⟨r1, hr1, hf⟩
        by_cases hid : (r1.rowid == s.rowid) = true
        · rw [if_pos hid] at hf
          refine Or.inl ?_
          rw [he, ← hf]
        · rw [if_neg hid] at hf
          exact Or.inr ⟨r1, hr1, by rw [he, ← hf]⟩

/-- add_sense preserves the mark invariant: the one synset that gains a
sense has its mark removed in the same call. -/
theorem markInv_addSense (st : Store) (entryId synsetId : String) (id? : Option String)
    (lexicalized : Bool) (adjposition metadata : Option String) (hinv : markInv st) :
    markInv (addSense st entryId synsetId id? lexicalized adjposition metadata).1 := by
  rcases he : getEntryRow st entryId with _ | entryRow
  · simp only [addSense, he]
    exact hinv
  · rcases hsyn : getSynsetRow st synsetId with _ | srow
    · simp only [addSense, he, hsyn]
      exact hinv
    · simp only [addSense, he, hsyn]
      split
      · exact hinv
      · split
        · exact hinv
        · split
          · exact hinv
          · intro m hm r hr
            rcases adjposition with _ | a <;> cases lexicalized <;>
            · simp only [recordCreate, Bool.not_true, Bool.not_false, if_true, if_false,
                Bool.false_eq_true, List.mem_filter, List.mem_append,
                List.mem_singleton] at hm hr
              rcases hr with hr | hr
              · exact hinv m hm.1 r hr
              · subst hr
                have h2 := hm.2
                simp only [bne_iff_ne, ne_eq] at h2
                intro hq
                exact h2 (by rw [← hq])

/-- _cleanup_sense_relations only touches relation rows, not senses. -/
theorem cleanupSenseRelLoop_senses (l : List RelRow) (st : Store) :
    (cleanupSenseRelLoop l st).senses = st.senses := by
  induction l generalizing st with
  | nil => rfl
  | cons rel rest ih =>
    rw [cleanupSenseRelLoop]
    rw [ih]
    rcases senseInverse rel.typ with _ | inv
    · rfl
    · simp only []
      split
      · rfl
      · rfl

/-- _cleanup_sense_relations never touches the unlexicalized marks. -/
theorem cleanupSenseRelLoop_unlexSynsets (l : List RelRow) (st : Store) :
    (cleanupSenseRelLoop l st).unlexSynsets = st.unlexSynsets := by
  induction l generalizing st with
  | nil => rfl
  | cons rel rest ih =>
    rw [cleanupSenseRelLoop]
    rw [ih]
    rcases senseInverse rel.typ with _ | inv
    · rfl
    · simp only []
      split
      · rfl
      · rfl

/-- remove_sense preserves the mark invariant: a mark is added only
when the owning synset is left with zero senses. -/
theorem markInv_removeSense (st : Store) (senseId : String) (hinv : markInv st) :
    markInv (removeSense st senseId).1 := by
  rcases hg : getSenseRow st senseId with _ | row
  · simp only [removeSense, removeSenseInternal, hg]
    exact hinv
  · simp only [removeSense, removeSenseInternal, hg, recordDelete]
    split
    · next hrem =>
      intro m hm r hr
      simp only [cleanupSenseRelLoop_unlexSynsets, cleanupSenseRelations,
        cleanupSenseRelLoop_senses, List.mem_append, List.mem_singleton,
        List.mem_filter] at hm hr
      rcases hm with hm | hm
      · exact hinv m hm r hr.1
      · subst hm
        intro hq
        rw [beq_iff_eq] at hrem
        have hmem : r ∈ List.filter (fun r => r.synset == row.synset)
            (List.filter (fun r => r.id != senseId) st.senses) :=
          List.mem_filter.mpr ⟨List.mem_filter.mpr ⟨hr.1, hr.2⟩, by simp [hq]⟩
        rw [List.length_eq_zero, cleanupSenseRelations, cleanupSenseRelLoop_senses] at hrem
        rw [hrem] at hmem
        cases hmem
    · next hrem =>
      intro m hm r hr
      simp only [cleanupSenseRelLoop_unlexSynsets, cleanupSenseRelations,
        cleanupSenseRelLoop_senses, List.mem_filter] at hm hr
      exact hinv m hm r hr.1

/-- move_sense preserves the mark invariant: the target is unmarked and
the source is marked only once emptied. -/
theorem markInv_moveSense (st : Store) (senseId targetSynsetId : String) (hinv : markInv st) :
    markInv (moveSense st senseId targetSynsetId).1 := by
  rcases hg : getSenseRow st senseId with _ | senseRow
  · simp only [moveSense, hg]
    exact hinv
  · rcases ht : getSynsetRow st targetSynsetId with _ | tgtRow
    · simp only [moveSense, hg, ht]
      exact hinv
    · simp only [moveSense, hg, ht]
      split
      · exact hinv
      · split
        · next hrem =>
          intro m hm r hr
          simp only [recordUpdate, List.mem_append, List.mem_filter,
            List.mem_singleton] at hm hr
          rcases List.mem_map.mp hr with ⟨r1, hr1, hf⟩
          rcases hm with ⟨hm1, hmne⟩ | hme
          · by_cases hid : (r1.id == senseId) = true
            · rw [if_pos hid] at hf
              subst hf
              simp only [bne_iff_ne, ne_eq] at hmne
              intro hq
              exact hmne (by rw [← hq])
            · rw [if_neg hid] at hf
              subst hf
              exact hinv m hm1 r1 hr1
          · subst hme
            intro hq
            rw [beq_iff_eq, List.length_eq_zero] at hrem
            have hmm : r ∈ List.filter (fun r => r.synset == senseRow.synset)
                (List.map (fun r => if r.id == senseId then
                  { r with synset := tgtRow.rowid } else r) st.senses) :=
              List.mem_filter.mpr ⟨hr, by simp [hq]⟩
            rw [hrem] at hmm
            cases hmm
        · next hrem =>
          intro m hm r hr
          simp only [recordUpdate, List.mem_filter] at hm hr
          rcases List.mem_map.mp hr with ⟨r1, hr1, hf⟩
          by_cases hid : (r1.id == senseId) = true
          · rw [if_pos hid] at hf
            subst hf
            have hmne := hm.2
            simp only [bne_iff_ne, ne_eq] at hmne
            intro hq
            exact hmne (by rw [← hq])
          · rw [if_neg hid] at hf
            subst hf
            exact hinv m hm.1 r1 hr1

/-- merge_synsets preserves the mark invariant: transferred senses point
at the unmarked target, and source marks die with the source row. -/
theorem markInv_mergeSynsets (st : Store) (sourceId targetId : String) (hinv : markInv st) :
    markInv (mergeSynsets st sourceId targetId).1 := by
  rcases hgs : getSynsetRow st sourceId with _ | src
  · simp only [mergeSynsets, hgs]
    exact hinv
  · rcases hgt : getSynsetRow st targetId with _ | tgt
    · simp only [mergeSynsets, hgs, hgt]
      exact hinv
    · simp only [mergeSynsets, hgs, hgt]
      split
      · exact hinv
      · intro m hm r hr
        simp only [recordUpdate, deleteSynsetCascade] at hm hr
        simp only [List.mem_filter] at hm hr
        obtain ⟨⟨hm0, hmt⟩, hms⟩ := hm
        rw [mergeSensesLoop_unlexSynsets] at hm0
        simp only [apply_ite Store.unlexSynsets, ite_self] at hm0
        obtain ⟨hr0, hrs⟩ := hr
        rcases mergeSensesLoop_senses_prov _ _ _ r hr0 with hteq | ⟨r0, hr0m, hsyn⟩
        · simp only [bne_iff_ne, ne_eq] at hmt
          intro hq
          exact hmt (by rw [← hq, hteq])
        · simp only [apply_ite Store.senses, ite_self] at hr0m
          intro hq
          exact hinv m hm0 r0 hr0m (by rw [← hsyn]; exact hq)

/-- C3: the synset lexicalization state machine.  add_sense leaves its
target synset unmarked; remove_sense marks the owning synset exactly
when it empties it; move_sense unmarks the target and marks the emptied
source; merge_synsets leaves the target unmarked regardless of prior
state; all four operations preserve the invariant that a mark never
coexists with owned senses; and under that invariant a synset owning a
sense is always reported lexicalized, the reported value being exactly
the absence of a mark. -/
theorem claim3_lexicalization_state
    (st : Store) (entryId synsetId senseId targetSynsetId sourceId targetId : String)
    (id? : Option String) (lexicalized : Bool) (adjposition metadata : Option String) :
    (∀ srow : SynsetRow, getSynsetRow st synsetId = some srow →
      (addSense st entryId synsetId id? lexicalized adjposition metadata).2 = none →
      srow.rowid ∉ (addSense st entryId synsetId id? lexicalized adjposition metadata).1.unlexSynsets) ∧
    (∀ row : SenseRow, getSenseRow st senseId = some row →
      ((removeSense st senseId).1.senses.filter (fun r => r.synset == row.synset)).length = 0 →
      row.synset ∈ (removeSense st senseId).1.unlexSynsets) ∧
    (∀ (senseRow : SenseRow) (tgtRow : SynsetRow),
      getSenseRow st senseId = some senseRow →
      getSynsetRow st targetSynsetId = some tgtRow →
      (moveSense st senseId targetSynsetId).2 = none →
      tgtRow.rowid ∉ (moveSense st senseId targetSynsetId).1.unlexSynsets ∧
      (((moveSense st senseId targetSynsetId).1.senses.filter
          (fun r => r.synset == senseRow.synset)).length = 0 →
        senseRow.synset ∈ (moveSense st senseId targetSynsetId).1.unlexSynsets)) ∧
    (∀ tgt : SynsetRow, getSynsetRow st targetId = some tgt →
      (mergeSynsets st sourceId targetId).2 = none →
      tgt.rowid ∉ (mergeSynsets st sourceId targetId).1.unlexSynsets) ∧
    (markInv st →
      markInv (addSense st entryId synsetId id? lexicalized adjposition metadata).1 ∧
      markInv (removeSense st senseId).1 ∧
      markInv (moveSense st senseId targetSynsetId).1 ∧
      markInv (mergeSynsets st sourceId targetId).1) ∧
    (markInv st → ∀ rid : Nat,
      (0 < (st.senses.filter (fun r => r.synset == rid)).length →
        synsetLexicalizedReported st rid = true) ∧
      synsetLexicalizedReported st rid = !(st.unlexSynsets.contains rid)) := by
  refine ⟨?_, ?_, ?_, ?_, ?_, ?_⟩
  · intro srow hs hok
    rcases he : getEntryRow st entryId with _ | entryRow
    · simp [addSense, he] at hok
    · simp only [addSense, he, hs] at hok ⊢
      split at hok
      · simp at hok
      · split at hok
        · simp at hok
        · split at hok
          · simp at hok
          · simp_all only [Bool.not_eq_true, Bool.false_eq_true, if_false]
            simp only [recordCreate]
            exact not_mem_filter_ne_self _ _
  · intro row hr h0
    simp only [removeSense, removeSenseInternal, hr] at h0 ⊢
    split at h0
    · next hrem =>
      simp_all
    · next hrem =>
      exfalso
      exact hrem (by simpa using h0)
  · intro senseRow tgtRow hs ht hok
    simp only [moveSense, hs, ht] at hok ⊢
    cases hdup : (st.senses.any fun r => r.entry == senseRow.entry && r.synset == tgtRow.rowid) with
    | true =>
      rw [hdup] at hok
      simp at hok
    | false =>
      simp only [hdup, Bool.false_eq_true, if_false] at hok ⊢
      constructor
      · split
        · next hrem =>
          simp only [recordUpdate]
          intro hmem
          simp only [List.mem_append, List.mem_filter, List.mem_singleton] at hmem
          rcases hmem with ⟨h1, h2⟩ | heq
          · simp at h2
          · have hsm := (mem_of_getSenseRow hs).1
            have hany : st.senses.any
                (fun r => r.entry == senseRow.entry && r.synset == tgtRow.rowid) = true := by
              refine List.any_eq_true.mpr ⟨senseRow, hsm, ?_⟩
              simp [heq]
            rw [hdup] at hany
            cases hany
        · next hrem =>
          simp only [recordUpdate]
          exact not_mem_filter_ne_self _ _
      · cases hrem : ((List.filter (fun r => r.synset == senseRow.synset)
            (List.map (fun r => if r.id == senseId then { r with synset := tgtRow.rowid } else r)
              st.senses)).length == 0) with
        | true =>
          intro h0
          simp only [hrem, if_true, recordUpdate]
          simp
        | false =>
          intro h0
          exfalso
          simp only [hrem, Bool.false_eq_true, if_false, recordUpdate] at h0
          rw [beq_eq_false_iff_ne] at hrem
          exact hrem h0
  · intro tgt ht hok
    rcases hgs : getSynsetRow st sourceId with _ | src
    · simp [mergeSynsets, hgs] at hok
    · simp only [mergeSynsets, hgs, ht] at hok ⊢
      cases hcon : ((src.ili.isSome || st.proposedIlis.any fun p => p.synset == src.rowid) &&
          (tgt.ili.isSome || st.proposedIlis.any fun p => p.synset == tgt.rowid)) with
      | true =>
        rw [hcon] at hok
        simp at hok
      | false =>
        simp only [hcon, Bool.false_eq_true, if_false]
        simp only [recordUpdate, deleteSynsetCascade]
        exact not_mem_filter_of_not_mem _ (not_mem_filter_ne_self _ _)
  · intro hinv
    exact ⟨markInv_addSense _ _ _ _ _ _ _ hinv, markInv_removeSense _ _ hinv,
      markInv_moveSense _ _ _ hinv, markInv_mergeSynsets _ _ _ hinv⟩
  · intro hinv rid
    refine ⟨?_, rfl⟩
    intro hpos
    rcases hfe : st.senses.filter (fun r => r.synset == rid) with _ | ⟨r, rest⟩
    · rw [hfe] at hpos
      simp at hpos
    · have hrm : r ∈ st.senses.filter (fun r => r.synset == rid) := by
        rw [hfe]
        exact List.mem_cons_self _ _
      have h1 := List.mem_filter.mp hrm
      cases hb : st.unlexSynsets.contains rid with
      | false =>
        unfold synsetLexicalizedReported
        rw [hb]
        rfl
      | true =>
        exfalso
        have hmem : rid ∈ st.unlexSynsets := List.mem_of_elem_eq_true hb
        exact hinv rid hmem r h1.1 (by simpa using h1.2)

/-- C3 witness: on the concrete store, add_sense to the marked synset 3
unmarks it; removing the only sense of synset 2 marks it; moving the
sense from 2 to 3 unmarks 3 and marks 2; merging 1 into 2 leaves the
target unmarked; and the invariant plus reporting facts hold. -/
theorem claim3_witness :
    ((addSense c3Store "awn-cat-n" "awn-00000002-n" none true none none).2 = none ∧
      (3 : Nat) ∉ (addSense c3Store "awn-cat-n" "awn-00000002-n" none true none none).1.unlexSynsets) ∧
    (((removeSense c3Store "awn-cat-n-00000001-n-01").1.senses.filter
        (fun r => r.synset == 2)).length = 0 ∧
      (2 : Nat) ∈ (removeSense c3Store "awn-cat-n-00000001-n-01").1.unlexSynsets) ∧
    ((moveSense c3Store "awn-cat-n-00000001-n-01" "awn-00000002-n").2 = none ∧
      (3 : Nat) ∉ (moveSense c3Store "awn-cat-n-00000001-n-01" "awn-00000002-n").1.unlexSynsets ∧
      (2 : Nat) ∈ (moveSense c3Store "awn-cat-n-00000001-n-01" "awn-00000002-n").1.unlexSynsets) ∧
    ((mergeSynsets c3Store "awn-00000001-n" "awn-00000002-n").2 = none ∧
      (3 : Nat) ∉ (mergeSynsets c3Store "awn-00000001-n" "awn-00000002-n").1.unlexSynsets) ∧
    markInv (addSense c3Store "awn-cat-n" "awn-00000002-n" none true none none).1 ∧
    synsetLexicalizedReported c3Store 2 = true ∧
    synsetLexicalizedReported c3Store 3 = false := by
  have h := claim3_lexicalization_state c3Store "awn-cat-n" "awn-00000002-n"
    "awn-cat-n-00000001-n-01" "awn-00000002-n" "awn-00000001-n" "awn-00000002-n"
    none true none none
  have hinv : markInv c3Store := by
    unfold markInv
    decide
  refine ⟨⟨by decide, h.1 ⟨3, "awn-00000002-n", 1, none, "n", none⟩ (by decide) (by decide)⟩,
    ⟨by decide, h.2.1 ⟨5, "awn-cat-n-00000001-n-01", 1, 4, 1, 2, 1, none⟩ (by decide) (by decide)⟩,
    ⟨by decide, ?_, ?_⟩,
    ⟨by decide, h.2.2.2.1 ⟨3, "awn-00000002-n", 1, none, "n", none⟩ (by decide) (by decide)⟩,
    (h.2.2.2.2.1 hinv).1,
    (h.2.2.2.2.2 hinv 2).1 (by decide),
    by decide⟩
  · exact (h.2.2.1 ⟨5, "awn-cat-n-00000001-n-01", 1, 4, 1, 2, 1, none⟩
      ⟨3, "awn-00000002-n", 1, none, "n", none⟩ (by decide) (by decide) (by decide)).1
  · exact (h.2.2.1 ⟨5, "awn-cat-n-00000001-n-01", 1, 4, 1, 2, 1, none⟩
      ⟨3, "awn-00000002-n", 1, none, "n", none⟩ (by decide) (by decide) (by decide)).2 (by decide)

/-- Triple-distinctness restricts to any subcollection. -/
theorem keyedDistinct_of_sub {l l' : List RelRow}
    (hsub : ∀ x ∈ l', x ∈ l) (h : keyedDistinct l) : keyedDistinct l' :=
  fun r1 h1 r2 h2 hne => h r1 (hsub r1 h1) r2 (hsub r2 h2) hne

/-- In a table with distinct rowids, the rowid determines the row. -/
theorem rel_eq_of_rowid_nodup {l : List RelRow} {r1 r2 : RelRow}
    (hnodup : (l.map (fun r => r.rowid)).Nodup) (h1 : r1 ∈ l) (h2 : r2 ∈ l)
    (he : r1.rowid = r2.rowid) : r1 = r2 := by
  induction l with
  | nil => cases h1
  | cons b tl ih =>
    simp only [List.map_cons, List.nodup_cons] at hnodup
    rcases List.mem_cons.mp h1 with rfl | hm1
    · rcases List.mem_cons.mp h2 with rfl | hm2
      · rfl
      · exact absurd (he ▸ List.mem_map_of_mem (fun r => r.rowid) hm2) hnodup.1
    · rcases List.mem_cons.mp h2 with rfl | hm2
      · exact absurd (he ▸ List.mem_map_of_mem (fun r => r.rowid) hm1) hnodup.1
      · exact ih hnodup.2 hm1 hm2

/-- The outgoing-redirect UPDATE keeps every rowid in place. -/
theorem outMap_rowids (tgtRid rid : Nat) (table : List RelRow) :
    (table.map (fun r => if r.rowid == rid then { r with src := tgtRid } else r)).map
      (fun r => r.rowid) = table.map (fun r => r.rowid) := by
  rw [List.map_map]
  apply List.map_congr_left
  intro a _
  by_cases hc : a.rowid = rid
  · simp [hc]
  · simp [hc]

/-- A row whose rowid is processed by no snapshot entry passes through
the outgoing-redirect loop untouched. -/
theorem mergeOutLoop_keep (tgtRid : Nat) (snap : List RelRow) :
    ∀ (table : List RelRow) (r : RelRow), r ∈ table →
      (∀ s ∈ snap, s.rowid ≠ r.rowid) →
      r ∈ mergeOutLoop tgtRid snap table := by
  induction snap with
  | nil =>
    intro table r hr _
    simpa [mergeOutLoop] using hr
  | cons rel rest ih =>
    intro table r hr hne
    have hrelne : rel.rowid ≠ r.rowid := hne rel (List.mem_cons_self _ _)
    have htail : ∀ s ∈ rest, s.rowid ≠ r.rowid :=
      fun s hs => hne s (List.mem_cons_of_mem _ hs)
    rw [mergeOutLoop]
    split
    · exact ih _ r (List.mem_filter.mpr ⟨hr, by simpa using (Ne.symm hrelne)⟩) htail
    · split
      · exact ih _ r (List.mem_filter.mpr ⟨hr, by simpa using (Ne.symm hrelne)⟩) htail
      · refine ih _ r (List.mem_map.mpr ⟨r, hr, ?_⟩) htail
        rw [if_neg]
        simp only [beq_iff_eq]
        exact Ne.symm hrelne

/-- The outgoing-redirect loop preserves rowid distinctness. -/
theorem mergeOutLoop_nodup (tgtRid : Nat) (snap : List RelRow) :
    ∀ table : List RelRow, ((table.map (fun r => r.rowid)).Nodup) →
      (((mergeOutLoop tgtRid snap table).map (fun r => r.rowid)).Nodup) := by
  induction snap with
  | nil =>
    intro table h
    simpa [mergeOutLoop] using h
  | cons rel rest ih =>
    intro table h
    rw [mergeOutLoop]
    split
    · exact ih _ (List.Nodup.sublist ((List.filter_sublist _).map _) h)
    · split
      · exact ih _ (List.Nodup.sublist ((List.filter_sublist _).map _) h)
      · apply ih
        rw [outMap_rowids]
        exact h

/-- Transfer through the outgoing-redirect loop: a snapshot row whose
redirect is not a self-loop ends up (itself redirected, or as the
pre-existing duplicate that suppressed it) as a row from the target
with the same far end and type. -/
theorem mergeOutLoop_transfer (tgtRid srcRid : Nat) (hst : srcRid ≠ tgtRid)
    (snap : List RelRow) :
    ∀ table : List RelRow,
      ((snap.map (fun r => r.rowid)).Nodup) →
      (∀ s ∈ snap, s.src = srcRid) →
      (∀ s ∈ snap, ∀ r ∈ table, r.rowid = s.rowid →
        r.src = s.src ∧ r.tgt = s.tgt ∧ r.typ = s.typ) →
      (∀ s ∈ snap, ∃ r ∈ table, r.rowid = s.rowid) →
      ∀ rel ∈ snap, rel.tgt ≠ tgtRid →
        ∃ r ∈ mergeOutLoop tgtRid snap table,
          r.src = tgtRid ∧ r.tgt = rel.tgt ∧ r.typ = rel.typ := by
  induction snap with
  | nil =>
    intro table _ _ _ _ rel h
    cases h
  | cons s0 rest ih =>
    intro table hnodup hsrc hrel hin rel hmem htne
    simp only [List.map_cons, List.nodup_cons] at hnodup
    rcases List.mem_cons.mp hmem with rfl | hmem
    · -- rel is the head: it is processed now
      rw [mergeOutLoop]
      rw [if_neg (by simp only [beq_iff_eq]; exact htne)]
      split
      · next hdup =>
        rcases List.any_eq_true.mp hdup with ⟨r0, hr0, hcond⟩
        simp only [Bool.and_eq_true, bne_iff_ne, beq_iff_eq, ne_eq] at hcond
        obtain ⟨⟨⟨hrne, hsrc0⟩, htgt0⟩, htyp0⟩ := hcond
        refine ⟨r0, ?_, hsrc0, htgt0, htyp0⟩
        apply mergeOutLoop_keep
        · refine List.mem_filter.mpr ⟨hr0, ?_⟩
          show (r0.rowid != rel.rowid) = true
          simpa using hrne
        · intro s hs he
          have h1 := (hrel s (List.mem_cons_of_mem _ hs) r0 hr0 he.symm).1
          rw [hsrc0] at h1
          exact hst (h1.trans (hsrc s (List.mem_cons_of_mem _ hs))).symm
      · next hdup =>
        rcases hin rel (List.mem_cons_self _ _) with ⟨r1, hr1, hre⟩
        have hfields := hrel rel (List.mem_cons_self _ _) r1 hr1 hre
        refine ⟨{ r1 with src := tgtRid }, ?_, rfl, hfields.2.1, hfields.2.2⟩
        apply mergeOutLoop_keep
        · refine List.mem_map.mpr ⟨r1, hr1, ?_⟩
          rw [if_pos]
          simp only [beq_iff_eq]
          exact hre
        · intro s hs he
          apply hnodup.1
          rw [← hre, ← he]
          exact List.mem_map_of_mem (fun r => r.rowid) hs
    · -- rel is in the tail
      have hs0ne : ∀ r : RelRow, r ∈ rest → r.rowid ≠ s0.rowid := by
        intro r hrr he
        exact hnodup.1 (he ▸ List.mem_map_of_mem (fun r => r.rowid) hrr)
      rw [mergeOutLoop]
      split
      · refine ih _ hnodup.2 (fun s hs => hsrc s (List.mem_cons_of_mem _ hs)) ?_ ?_ rel hmem htne
        · intro s hs r hr he
          exact hrel s (List.mem_cons_of_mem _ hs) r (List.mem_of_mem_filter hr) he
        · intro s hs
          rcases hin s (List.mem_cons_of_mem _ hs) with ⟨r, hr, hre⟩
          refine ⟨r, List.mem_filter.mpr ⟨hr, ?_⟩, hre⟩
          simp only [bne_iff_ne, ne_eq]
          rw [hre]
          exact hs0ne s hs
      · split
        · refine ih _ hnodup.2 (fun s hs => hsrc s (List.mem_cons_of_mem _ hs)) ?_ ?_ rel hmem htne
          · intro s hs r hr he
            exact hrel s (List.mem_cons_of_mem _ hs) r (List.mem_of_mem_filter hr) he
          · intro s hs
            rcases hin s (List.mem_cons_of_mem _ hs) with ⟨r, hr, hre⟩
            refine ⟨r, List.mem_filter.mpr ⟨hr, ?_⟩, hre⟩
            simp only [bne_iff_ne, ne_eq]
            rw [hre]
            exact hs0ne s hs
        · refine ih _ hnodup.2 (fun s hs => hsrc s (List.mem_cons_of_mem _ hs)) ?_ ?_ rel hmem htne
          · intro s hs r hr he
            rcases List.mem_map.mp hr with ⟨r1, hr1, hf⟩
            by_cases hc : (r1.rowid == s0.rowid) = true
            · rw [if_pos hc] at hf
              exfalso
              rw [← hf] at he
              simp only [beq_iff_eq] at hc
              exact hs0ne s hs (he ▸ hc)
            · rw [if_neg hc] at hf
              rw [← hf] at he ⊢
              exact hrel s (List.mem_cons_of_mem _ hs) r1 hr1 he
          · intro s hs
            rcases hin s (List.mem_cons_of_mem _ hs) with ⟨r, hr, hre⟩
            by_cases hc : (r.rowid == s0.rowid) = true
            · exfalso
              simp only [beq_iff_eq] at hc
              exact hs0ne s hs (hre ▸ hc)
            · refine ⟨r, List.mem_map.mpr ⟨r, hr, ?_⟩, hre⟩
              rw [if_neg hc]

/-- The outgoing-redirect UPDATE changes only the source column. -/
theorem outMap_pres (tgtRid rid : Nat) (r1 : RelRow) :
    ((if r1.rowid == rid then { r1 with src := tgtRid } else r1) : RelRow).rowid = r1.rowid ∧
    ((if r1.rowid == rid then { r1 with src := tgtRid } else r1) : RelRow).tgt = r1.tgt ∧
    ((if r1.rowid == rid then { r1 with src := tgtRid } else r1) : RelRow).typ = r1.typ := by
  by_cases hc : (r1.rowid == rid) = true
  · rw [if_pos hc]
    exact ⟨rfl, rfl, rfl⟩
  · rw [if_neg hc]
    exact ⟨rfl, rfl, rfl⟩

/-- The outgoing-redirect loop never creates a self-loop: a row whose
redirect would self-loop is deleted instead. -/
theorem mergeOutLoop_noloop (tgtRid : Nat) (snap : List RelRow) :
    ∀ table : List RelRow,
      ((snap.map (fun r => r.rowid)).Nodup) →
      (∀ s ∈ snap, ∀ r ∈ table, r.rowid = s.rowid → r.tgt = s.tgt) →
      (∀ r ∈ table, r.src ≠ r.tgt) →
      ∀ r ∈ mergeOutLoop tgtRid snap table, r.src ≠ r.tgt := by
  induction snap with
  | nil =>
    intro table _ _ h r hr
    rw [mergeOutLoop] at hr
    exact h r hr
  | cons s0 rest ih =>
    intro table hnodup hrel hloop r hr
    simp only [List.map_cons, List.nodup_cons] at hnodup
    rw [mergeOutLoop] at hr
    split at hr
    · exact ih _ hnodup.2
        (fun s hs r' hr' he => hrel s (List.mem_cons_of_mem _ hs) r' (List.mem_of_mem_filter hr') he)
        (fun r' hr' => hloop r' (List.mem_of_mem_filter hr')) r hr
    · split at hr
      · exact ih _ hnodup.2
          (fun s hs r' hr' he => hrel s (List.mem_cons_of_mem _ hs) r' (List.mem_of_mem_filter hr') he)
          (fun r' hr' => hloop r' (List.mem_of_mem_filter hr')) r hr
      · next h1 h2 =>
        refine ih _ hnodup.2 ?_ ?_ r hr
        · intro s hs r' hr' he
          rcases List.mem_map.mp hr' with ⟨r1, hr1, hf⟩
          have hp := outMap_pres tgtRid s0.rowid r1
          rw [hf] at hp
          rw [hp.2.1]
          exact hrel s (List.mem_cons_of_mem _ hs) r1 hr1 (hp.1 ▸ he)
        · intro r' hr'
          rcases List.mem_map.mp hr' with ⟨r1, hr1, hf⟩
          by_cases hc : (r1.rowid == s0.rowid) = true
          · rw [if_pos hc] at hf
            rw [← hf]
            simp only [beq_iff_eq] at hc
            have hts := hrel s0 (List.mem_cons_self _ _) r1 hr1 hc
            intro hq
            apply h1
            simp only [beq_iff_eq]
            rw [← hts, ← hq]
          · rw [if_neg hc] at hf
            rw [← hf]
            exact hloop r1 hr1

/-- The outgoing-redirect loop preserves triple-distinctness: a redirect
that would duplicate an existing triple deletes the row instead. -/
theorem mergeOutLoop_distinct (tgtRid : Nat) (snap : List RelRow) :
    ∀ table : List RelRow,
      ((table.map (fun r => r.rowid)).Nodup) →
      ((snap.map (fun r => r.rowid)).Nodup) →
      (∀ s ∈ snap, ∀ r ∈ table, r.rowid = s.rowid → r.tgt = s.tgt ∧ r.typ = s.typ) →
      keyedDistinct table →
      keyedDistinct (mergeOutLoop tgtRid snap table) := by
  induction snap with
  | nil =>
    intro table _ _ _ h
    rw [mergeOutLoop]
    exact h
  | cons s0 rest ih =>
    intro table htbl hnodup hrel hdist
    simp only [List.map_cons, List.nodup_cons] at hnodup
    rw [mergeOutLoop]
    split
    · exact ih _ (List.Nodup.sublist ((List.filter_sublist _).map _) htbl) hnodup.2
        (fun s hs r hr he => hrel s (List.mem_cons_of_mem _ hs) r (List.mem_of_mem_filter hr) he)
        (keyedDistinct_of_sub (fun x hx => List.mem_of_mem_filter hx) hdist)
    · split
      · exact ih _ (List.Nodup.sublist ((List.filter_sublist _).map _) htbl) hnodup.2
          (fun s hs r hr he => hrel s (List.mem_cons_of_mem _ hs) r (List.mem_of_mem_filter hr) he)
          (keyedDistinct_of_sub (fun x hx => List.mem_of_mem_filter hx) hdist)
      · next h1 h2 =>
        refine ih _ ?_ hnodup.2 ?_ ?_
        · rw [outMap_rowids]
          exact htbl
        · intro s hs r hr he
          rcases List.mem_map.mp hr with ⟨r1, hr1, hf⟩
          have hp := outMap_pres tgtRid s0.rowid r1
          rw [hf] at hp
          rw [hp.2.1, hp.2.2]
          exact hrel s (List.mem_cons_of_mem _ hs) r1 hr1 (hp.1 ▸ he)
        · intro r1' h1' r2' h2' hneq htr
          rcases List.mem_map.mp h1' with ⟨a, ha, hfa⟩
          rcases List.mem_map.mp h2' with ⟨b, hb, hfb⟩
          have hpa := outMap_pres tgtRid s0.rowid a
          rw [hfa] at hpa
          have hpb := outMap_pres tgtRid s0.rowid b
          rw [hfb] at hpb
          by_cases hca : (a.rowid == s0.rowid) = true <;>
            by_cases hcb : (b.rowid == s0.rowid) = true
          · simp only [beq_iff_eq] at hca hcb
            exact hneq (by rw [hpa.1, hpb.1, hca, hcb])
          · rw [if_pos hca] at hfa
            rw [if_neg hcb] at hfb
            apply h2
            refine List.any_eq_true.mpr ⟨b, hb, ?_⟩
            simp only [beq_iff_eq] at hca
            have hts := hrel s0 (List.mem_cons_self _ _) a ha hca
            simp only [Bool.and_eq_true, bne_iff_ne, ne_eq, beq_iff_eq]
            refine ⟨⟨⟨?_, ?_⟩, ?_⟩, ?_⟩
            · intro hbe
              exact hneq (by rw [hpa.1, hpb.1, hca, hbe])
            · rw [hfb, ← htr.1, ← hfa]
            · rw [hfb, ← htr.2.1, ← hfa]
              exact hts.1
            · rw [hfb, ← htr.2.2, ← hfa]
              exact hts.2
          · rw [if_neg hca] at hfa
            rw [if_pos hcb] at hfb
            apply h2
            refine List.any_eq_true.mpr ⟨a, ha, ?_⟩
            simp only [beq_iff_eq] at hcb
            have hts := hrel s0 (List.mem_cons_self _ _) b hb hcb
            simp only [Bool.and_eq_true, bne_iff_ne, ne_eq, beq_iff_eq]
            refine ⟨⟨⟨?_, ?_⟩, ?_⟩, ?_⟩
            · intro hae
              exact hneq (by rw [hpa.1, hpb.1, hae, hcb])
            · rw [hfa, htr.1, ← hfb]
            · rw [hfa, htr.2.1, ← hfb]
              exact hts.1
            · rw [hfa, htr.2.2, ← hfb]
              exact hts.2
          · rw [if_neg hca] at hfa
            rw [if_neg hcb] at hfb
            subst hfa
            subst hfb
            exact hdist a ha b hb hneq htr

/-- The incoming-redirect UPDATE keeps every rowid in place. -/
theorem inMap_rowids (tgtRid rid : Nat) (table : List RelRow) :
    (table.map (fun r => if r.rowid == rid then { r with tgt := tgtRid } else r)).map
      (fun r => r.rowid) = table.map (fun r => r.rowid) := by
  rw [List.map_map]
  apply List.map_congr_left
  intro a _
  by_cases hc : a.rowid = rid
  · simp [hc]
  · simp [hc]

/-- The incoming-redirect UPDATE changes only the target column. -/
theorem inMap_pres (tgtRid rid : Nat) (r1 : RelRow) :
    ((if r1.rowid == rid then { r1 with tgt := tgtRid } else r1) : RelRow).rowid = r1.rowid ∧
    ((if r1.rowid == rid then { r1 with tgt := tgtRid } else r1) : RelRow).src = r1.src ∧
    ((if r1.rowid == rid then { r1 with tgt := tgtRid } else r1) : RelRow).typ = r1.typ := by
  by_cases hc : (r1.rowid == rid) = true
  · rw [if_pos hc]
    exact ⟨rfl, rfl, rfl⟩
  · rw [if_neg hc]
    exact ⟨rfl, rfl, rfl⟩

/-- A row whose rowid is processed by no snapshot entry passes through
the incoming-redirect loop untouched. -/
theorem mergeInLoop_keep (tgtRid : Nat) (snap : List RelRow) :
    ∀ (table : List RelRow) (r : RelRow), r ∈ table →
      (∀ s ∈ snap, s.rowid ≠ r.rowid) →
      r ∈ mergeInLoop tgtRid snap table := by
  induction snap with
  | nil =>
    intro table r hr _
    simpa [mergeInLoop] using hr
  | cons rel rest ih =>
    intro table r hr hne
    have hrelne : rel.rowid ≠ r.rowid := hne rel (List.mem_cons_self _ _)
    have htail : ∀ s ∈ rest, s.rowid ≠ r.rowid :=
      fun s hs => hne s (List.mem_cons_of_mem _ hs)
    rw [mergeInLoop]
    split
    · exact ih _ r (List.mem_filter.mpr ⟨hr, by simpa using (Ne.symm hrelne)⟩) htail
    · split
      · exact ih _ r (List.mem_filter.mpr ⟨hr, by simpa using (Ne.symm hrelne)⟩) htail
      · refine ih _ r (List.mem_map.mpr ⟨r, hr, ?_⟩) htail
        rw [if_neg]
        simp only [beq_iff_eq]
        exact Ne.symm hrelne

/-- The incoming-redirect loop preserves rowid distinctness. -/
theorem mergeInLoop_nodup (tgtRid : Nat) (snap : List RelRow) :
    ∀ table : List RelRow, ((table.map (fun r => r.rowid)).Nodup) →
      (((mergeInLoop tgtRid snap table).map (fun r => r.rowid)).Nodup) := by
  induction snap with
  | nil =>
    intro table h
    simpa [mergeInLoop] using h
  | cons rel rest ih =>
    intro table h
    rw [mergeInLoop]
    split
    · exact ih _ (List.Nodup.sublist ((List.filter_sublist _).map _) h)
    · split
      · exact ih _ (List.Nodup.sublist ((List.filter_sublist _).map _) h)
      · apply ih
        rw [inMap_rowids]
        exact h

/-- Transfer through the incoming-redirect loop, mirroring
mergeOutLoop_transfer on the target side. -/
theorem mergeInLoop_transfer (tgtRid srcRid : Nat) (hst : srcRid ≠ tgtRid)
    (snap : List RelRow) :
    ∀ table : List RelRow,
      ((snap.map (fun r => r.rowid)).Nodup) →
      (∀ s ∈ snap, s.tgt = srcRid) →
      (∀ s ∈ snap, ∀ r ∈ table, r.rowid = s.rowid →
        r.src = s.src ∧ r.tgt = s.tgt ∧ r.typ = s.typ) →
      (∀ s ∈ snap, ∃ r ∈ table, r.rowid = s.rowid) →
      ∀ rel ∈ snap, rel.src ≠ tgtRid →
        ∃ r ∈ mergeInLoop tgtRid snap table,
          r.src = rel.src ∧ r.tgt = tgtRid ∧ r.typ = rel.typ := by
  induction snap with
  | nil =>
    intro table _ _ _ _ rel h
    cases h
  | cons s0 rest ih =>
    intro table hnodup htgt hrel hin rel hmem hsne
    simp only [List.map_cons, List.nodup_cons] at hnodup
    rcases List.mem_cons.mp hmem with rfl | hmem
    · rw [mergeInLoop]
      rw [if_neg (by simp only [beq_iff_eq]; exact hsne)]
      split
      · next hdup =>
        rcases List.any_eq_true.mp hdup with ⟨r0, hr0, hcond⟩
        simp only [Bool.and_eq_true, bne_iff_ne, beq_iff_eq, ne_eq] at hcond
        obtain ⟨⟨⟨hrne, hsrc0⟩, htgt0⟩, htyp0⟩ := hcond
        refine ⟨r0, ?_, hsrc0, htgt0, htyp0⟩
        apply mergeInLoop_keep
        · refine List.mem_filter.mpr ⟨hr0, ?_⟩
          show (r0.rowid != rel.rowid) = true
          simpa using hrne
        · intro s hs he
          have h1 := (hrel s (List.mem_cons_of_mem _ hs) r0 hr0 he.symm).2.1
          rw [htgt0] at h1
          exact hst (h1.trans (htgt s (List.mem_cons_of_mem _ hs))).symm
      · next hdup =>
        rcases hin rel (List.mem_cons_self _ _) with ⟨r1, hr1, hre⟩
        have hfields := hrel rel (List.mem_cons_self _ _) r1 hr1 hre
        refine ⟨{ r1 with tgt := tgtRid }, ?_, hfields.1, rfl, hfields.2.2⟩
        apply mergeInLoop_keep
        · refine List.mem_map.mpr ⟨r1, hr1, ?_⟩
          rw [if_pos]
          simp only [beq_iff_eq]
          exact hre
        · intro s hs he
          apply hnodup.1
          rw [← hre, ← he]
          exact List.mem_map_of_mem (fun r => r.rowid) hs
    · have hs0ne : ∀ r : RelRow, r ∈ rest → r.rowid ≠ s0.rowid := by
        intro r hrr he
        exact hnodup.1 (he ▸ List.mem_map_of_mem (fun r => r.rowid) hrr)
      rw [mergeInLoop]
      split
      · refine ih _ hnodup.2 (fun s hs => htgt s (List.mem_cons_of_mem _ hs)) ?_ ?_ rel hmem hsne
        · intro s hs r hr he
          exact hrel s (List.mem_cons_of_mem _ hs) r (List.mem_of_mem_filter hr) he
        · intro s hs
          rcases hin s (List.mem_cons_of_mem _ hs) with ⟨r, hr, hre⟩
          refine ⟨r, List.mem_filter.mpr ⟨hr, ?_⟩, hre⟩
          simp only [bne_iff_ne, ne_eq]
          rw [hre]
          exact hs0ne s hs
      · split
        · refine ih _ hnodup.2 (fun s hs => htgt s (List.mem_cons_of_mem _ hs)) ?_ ?_ rel hmem hsne
          · intro s hs r hr he
            exact hrel s (List.mem_cons_of_mem _ hs) r (List.mem_of_mem_filter hr) he
          · intro s hs
            rcases hin s (List.mem_cons_of_mem _ hs) with ⟨r, hr, hre⟩
            refine ⟨r, List.mem_filter.mpr ⟨hr, ?_⟩, hre⟩
            simp only [bne_iff_ne, ne_eq]
            rw [hre]
            exact hs0ne s hs
        · refine ih _ hnodup.2 (fun s hs => htgt s (List.mem_cons_of_mem _ hs)) ?_ ?_ rel hmem hsne
          · intro s hs r hr he
            rcases List.mem_map.mp hr with ⟨r1, hr1, hf⟩
            by_cases hc : (r1.rowid == s0.rowid) = true
            · rw [if_pos hc] at hf
              exfalso
              rw [← hf] at he
              simp only [beq_iff_eq] at hc
              exact hs0ne s hs (he ▸ hc)
            · rw [if_neg hc] at hf
              rw [← hf] at he ⊢
              exact hrel s (List.mem_cons_of_mem _ hs) r1 hr1 he
          · intro s hs
            rcases hin s (List.mem_cons_of_mem _ hs) with ⟨r, hr, hre⟩
            by_cases hc : (r.rowid == s0.rowid) = true
            · exfalso
              simp only [beq_iff_eq] at hc
              exact hs0ne s hs (hre ▸ hc)
            · refine ⟨r, List.mem_map.mpr ⟨r, hr, ?_⟩, hre⟩
              rw [if_neg hc]

/-- The incoming-redirect loop never creates a self-loop. -/
theorem mergeInLoop_noloop (tgtRid : Nat) (snap : List RelRow) :
    ∀ table : List RelRow,
      ((snap.map (fun r => r.rowid)).Nodup) →
      (∀ s ∈ snap, ∀ r ∈ table, r.rowid = s.rowid → r.src = s.src) →
      (∀ r ∈ table, r.src ≠ r.tgt) →
      ∀ r ∈ mergeInLoop tgtRid snap table, r.src ≠ r.tgt := by
  induction snap with
  | nil =>
    intro table _ _ h r hr
    rw [mergeInLoop] at hr
    exact h r hr
  | cons s0 rest ih =>
    intro table hnodup hrel hloop r hr
    simp only [List.map_cons, List.nodup_cons] at hnodup
    rw [mergeInLoop] at hr
    split at hr
    · exact ih _ hnodup.2
        (fun s hs r' hr' he => hrel s (List.mem_cons_of_mem _ hs) r' (List.mem_of_mem_filter hr') he)
        (fun r' hr' => hloop r' (List.mem_of_mem_filter hr')) r hr
    · split at hr
      · exact ih _ hnodup.2
          (fun s hs r' hr' he => hrel s (List.mem_cons_of_mem _ hs) r' (List.mem_of_mem_filter hr') he)
          (fun r' hr' => hloop r' (List.mem_of_mem_filter hr')) r hr
      · next h1 h2 =>
        refine ih _ hnodup.2 ?_ ?_ r hr
        · intro s hs r' hr' he
          rcases List.mem_map.mp hr' with ⟨r1, hr1, hf⟩
          have hp := inMap_pres tgtRid s0.rowid r1
          rw [hf] at hp
          rw [hp.2.1]
          exact hrel s (List.mem_cons_of_mem _ hs) r1 hr1 (hp.1 ▸ he)
        · intro r' hr'
          rcases List.mem_map.mp hr' with ⟨r1, hr1, hf⟩
          by_cases hc : (r1.rowid == s0.rowid) = true
          · rw [if_pos hc] at hf
            rw [← hf]
            simp only [beq_iff_eq] at hc
            have hts := hrel s0 (List.mem_cons_self _ _) r1 hr1 hc
            intro hq
            apply h1
            simp only [beq_iff_eq]
            rw [← hts]
            exact hq
          · rw [if_neg hc] at hf
            rw [← hf]
            exact hloop r1 hr1

/-- The incoming-redirect loop preserves triple-distinctness. -/
theorem mergeInLoop_distinct (tgtRid : Nat) (snap : List RelRow) :
    ∀ table : List RelRow,
      ((table.map (fun r => r.rowid)).Nodup) →
      ((snap.map (fun r => r.rowid)).Nodup) →
      (∀ s ∈ snap, ∀ r ∈ table, r.rowid = s.rowid → r.src = s.src ∧ r.typ = s.typ) →
      keyedDistinct table →
      keyedDistinct (mergeInLoop tgtRid snap table) := by
  induction snap with
  | nil =>
    intro table _ _ _ h
    rw [mergeInLoop]
    exact h
  | cons s0 rest ih =>
    intro table htbl hnodup hrel hdist
    simp only [List.map_cons, List.nodup_cons] at hnodup
    rw [mergeInLoop]
    split
    · exact ih _ (List.Nodup.sublist ((List.filter_sublist _).map _) htbl) hnodup.2
        (fun s hs r hr he => hrel s (List.mem_cons_of_mem _ hs) r (List.mem_of_mem_filter hr) he)
        (keyedDistinct_of_sub (fun x hx => List.mem_of_mem_filter hx) hdist)
    · split
      · exact ih _ (List.Nodup.sublist ((List.filter_sublist _).map _) htbl) hnodup.2
          (fun s hs r hr he => hrel s (List.mem_cons_of_mem _ hs) r (List.mem_of_mem_filter hr) he)
          (keyedDistinct_of_sub (fun x hx => List.mem_of_mem_filter hx) hdist)
      · next h1 h2 =>
        refine ih _ ?_ hnodup.2 ?_ ?_
        · rw [inMap_rowids]
          exact htbl
        · intro s hs r hr he
          rcases List.mem_map.mp hr with ⟨r1, hr1, hf⟩
          have hp := inMap_pres tgtRid s0.rowid r1
          rw [hf] at hp
          rw [hp.2.1, hp.2.2]
          exact hrel s (List.mem_cons_of_mem _ hs) r1 hr1 (hp.1 ▸ he)
        · intro r1' h1' r2' h2' hneq htr
          rcases List.mem_map.mp h1' with ⟨a, ha, hfa⟩
          rcases List.mem_map.mp h2' with ⟨b, hb, hfb⟩
          have hpa := inMap_pres tgtRid s0.rowid a
          rw [hfa] at hpa
          have hpb := inMap_pres tgtRid s0.rowid b
          rw [hfb] at hpb
          by_cases hca : (a.rowid == s0.rowid) = true <;>
            by_cases hcb : (b.rowid == s0.rowid) = true
          · simp only [beq_iff_eq] at hca hcb
            exact hneq (by rw [hpa.1, hpb.1, hca, hcb])
          · rw [if_pos hca] at hfa
            rw [if_neg hcb] at hfb
            apply h2
            refine List.any_eq_true.mpr ⟨b, hb, ?_⟩
            simp only [beq_iff_eq] at hca
            have hts := hrel s0 (List.mem_cons_self _ _) a ha hca
            simp only [Bool.and_eq_true, bne_iff_ne, ne_eq, beq_iff_eq]
            refine ⟨⟨⟨?_, ?_⟩, ?_⟩, ?_⟩
            · intro hbe
              exact hneq (by rw [hpa.1, hpb.1, hca, hbe])
            · rw [hfb, ← htr.1, ← hfa]
              exact hts.1
            · rw [hfb, ← htr.2.1, ← hfa]
            · rw [hfb, ← htr.2.2, ← hfa]
              exact hts.2
          · rw [if_neg hca] at hfa
            rw [if_pos hcb] at hfb
            apply h2
            refine List.any_eq_true.mpr ⟨a, ha, ?_⟩
            simp only [beq_iff_eq] at hcb
            have hts := hrel s0 (List.mem_cons_self _ _) b hb hcb
            simp only [Bool.and_eq_true, bne_iff_ne, ne_eq, beq_iff_eq]
            refine ⟨⟨⟨?_, ?_⟩, ?_⟩, ?_⟩
            · intro hae
              exact hneq (by rw [hpa.1, hpb.1, hae, hcb])
            · rw [hfa, htr.1, ← hfb]
              exact hts.1
            · rw [hfa, htr.2.1, ← hfb]
            · rw [hfa, htr.2.2, ← hfb]
              exact hts.2
          · rw [if_neg hca] at hfa
            rw [if_neg hcb] at hfb
            subst hfa
            subst hfb
            exact hdist a ha b hb hneq htr

/-- C4: on a successful merge of two distinct synsets over a table with
distinct rowids, the source synset appears in no surviving relation
row; every outgoing relation of the source whose redirect is neither a
self-loop nor aimed back at the source survives as a relation from the
target with the same far end and type; symmetrically for incoming
relations; no self-loop is ever created; and the (source, target,
type) uniqueness of the table is preserved. -/
theorem claim4_merge_relation_rewrite
    (st : Store) (sourceId targetId : String) (src tgt : SynsetRow)
    (hs : getSynsetRow st sourceId = some src)
    (ht : getSynsetRow st targetId = some tgt)
    (hne : src.rowid ≠ tgt.rowid)
    (hnodup : ((st.synsetRelations.map (fun r => r.rowid)).Nodup))
    (hok : (mergeSynsets st sourceId targetId).2 = none) :
    (∀ r ∈ (mergeSynsets st sourceId targetId).1.synsetRelations,
      r.src ≠ src.rowid ∧ r.tgt ≠ src.rowid) ∧
    (∀ rel ∈ st.synsetRelations, rel.src = src.rowid → rel.tgt ≠ tgt.rowid →
      rel.tgt ≠ src.rowid →
      ∃ r ∈ (mergeSynsets st sourceId targetId).1.synsetRelations,
        r.src = tgt.rowid ∧ r.tgt = rel.tgt ∧ r.typ = rel.typ) ∧
    (∀ rel ∈ st.synsetRelations, rel.tgt = src.rowid → rel.src ≠ tgt.rowid →
      rel.src ≠ src.rowid →
      ∃ r ∈ (mergeSynsets st sourceId targetId).1.synsetRelations,
        r.src = rel.src ∧ r.tgt = tgt.rowid ∧ r.typ = rel.typ) ∧
    ((∀ r ∈ st.synsetRelations, r.src ≠ r.tgt) →
      ∀ r ∈ (mergeSynsets st sourceId targetId).1.synsetRelations, r.src ≠ r.tgt) ∧
    (keyedDistinct st.synsetRelations →
      keyedDistinct (mergeSynsets st sourceId targetId).1.synsetRelations) := by
  have hconfalse : ((src.ili.isSome || st.proposedIlis.any fun p => p.synset == src.rowid) &&
      (tgt.ili.isSome || st.proposedIlis.any fun p => p.synset == tgt.rowid)) = false := by
    cases hcon : ((src.ili.isSome || st.proposedIlis.any fun p => p.synset == src.rowid) &&
        (tgt.ili.isSome || st.proposedIlis.any fun p => p.synset == tgt.rowid)) with
    | false => rfl
    | true =>
      exfalso
      simp only [mergeSynsets, hs, ht, hcon, if_true] at hok
      simp at hok
  have heq : (mergeSynsets st sourceId targetId).1.synsetRelations =
      (mergeInLoop tgt.rowid
        ((mergeOutLoop tgt.rowid
            (st.synsetRelations.filter (fun r => r.src == src.rowid))
            st.synsetRelations).filter (fun r => r.tgt == src.rowid))
        (mergeOutLoop tgt.rowid
          (st.synsetRelations.filter (fun r => r.src == src.rowid))
          st.synsetRelations)).filter
        (fun r => r.src != src.rowid && r.tgt != src.rowid) := by
    simp only [mergeSynsets, hs, ht, hconfalse, Bool.false_eq_true, if_false,
      recordUpdate, deleteSynsetCascade, mergeSensesLoop_synsetRelations,
      apply_ite Store.synsetRelations, ite_self]
  have hsnapO : ∀ s ∈ st.synsetRelations.filter (fun r => r.src == src.rowid),
      s.src = src.rowid := by
    intro s hs2
    simpa using (List.mem_filter.mp hs2).2
  have hsnapONodup : (((st.synsetRelations.filter (fun r => r.src == src.rowid)).map
      (fun r => r.rowid)).Nodup) :=
    List.Nodup.sublist ((List.filter_sublist _).map _) hnodup
  have hsreO : ∀ s ∈ st.synsetRelations.filter (fun r => r.src == src.rowid),
      ∀ r ∈ st.synsetRelations, r.rowid = s.rowid →
        r.src = s.src ∧ r.tgt = s.tgt ∧ r.typ = s.typ := by
    intro s hs2 r hr he
    rw [rel_eq_of_rowid_nodup hnodup hr (List.mem_of_mem_filter hs2) he]
    exact ⟨rfl, rfl, rfl⟩
  have hinO : ∀ s ∈ st.synsetRelations.filter (fun r => r.src == src.rowid),
      ∃ r ∈ st.synsetRelations, r.rowid = s.rowid :=
    fun s hs2 => ⟨s, List.mem_of_mem_filter hs2, rfl⟩
  have htbl1 : (((mergeOutLoop tgt.rowid
      (st.synsetRelations.filter (fun r => r.src == src.rowid))
      st.synsetRelations).map (fun r => r.rowid)).Nodup) :=
    mergeOutLoop_nodup _ _ _ hnodup
  have hsnapINodup : (((mergeOutLoop tgt.rowid
      (st.synsetRelations.filter (fun r => r.src == src.rowid))
      st.synsetRelations).filter (fun r => r.tgt == src.rowid)).map
      (fun r => r.rowid)).Nodup :=
    List.Nodup.sublist ((List.filter_sublist _).map _) htbl1
  have hsnapI : ∀ s ∈ (mergeOutLoop tgt.rowid
      (st.synsetRelations.filter (fun r => r.src == src.rowid))
      st.synsetRelations).filter (fun r => r.tgt == src.rowid),
      s.tgt = src.rowid := by
    intro s hs2
    simpa using (List.mem_filter.mp hs2).2
  have hsreI : ∀ s ∈ (mergeOutLoop tgt.rowid
      (st.synsetRelations.filter (fun r => r.src == src.rowid))
      st.synsetRelations).filter (fun r => r.tgt == src.rowid),
      ∀ r ∈ mergeOutLoop tgt.rowid
        (st.synsetRelations.filter (fun r => r.src == src.rowid))
        st.synsetRelations, r.rowid = s.rowid →
        r.src = s.src ∧ r.tgt = s.tgt ∧ r.typ = s.typ := by
    intro s hs2 r hr he
    rw [rel_eq_of_rowid_nodup htbl1 hr (List.mem_of_mem_filter hs2) he]
    exact ⟨rfl, rfl, rfl⟩
  have hinI : ∀ s ∈ (mergeOutLoop tgt.rowid
      (st.synsetRelations.filter (fun r => r.src == src.rowid))
      st.synsetRelations).filter (fun r => r.tgt == src.rowid),
      ∃ r ∈ mergeOutLoop tgt.rowid
        (st.synsetRelations.filter (fun r => r.src == src.rowid))
        st.synsetRelations, r.rowid = s.rowid :=
    fun s hs2 => ⟨s, List.mem_of_mem_filter hs2, rfl⟩
  refine ⟨?_, ?_, ?_, ?_, ?_⟩
  · intro r hr
    rw [heq] at hr
    have hc := (List.mem_filter.mp hr).2
    simp only [Bool.and_eq_true, bne_iff_ne, ne_eq] at hc
    exact hc
  · intro rel hrelmem hsrceq htne1 htne2
    have hmemO : rel ∈ st.synsetRelations.filter (fun r => r.src == src.rowid) := by
      refine List.mem_filter.mpr ⟨hrelmem, ?_⟩
      simp [hsrceq]
    obtain ⟨r2, hr2, hsrc2, htgt2, htyp2⟩ :=
      mergeOutLoop_transfer tgt.rowid src.rowid hne _ _
        hsnapONodup hsnapO hsreO hinO rel hmemO htne1
    have hr3 : r2 ∈ mergeInLoop tgt.rowid
        ((mergeOutLoop tgt.rowid
          (st.synsetRelations.filter (fun r => r.src == src.rowid))
          st.synsetRelations).filter (fun r => r.tgt == src.rowid))
        (mergeOutLoop tgt.rowid
          (st.synsetRelations.filter (fun r => r.src == src.rowid))
          st.synsetRelations) := by
      apply mergeInLoop_keep
      · exact hr2
      · intro s hs2 he
        have heqr := rel_eq_of_rowid_nodup htbl1 (List.mem_of_mem_filter hs2) hr2 he
        have hst2 := hsnapI s hs2
        rw [heqr] at hst2
        rw [htgt2] at hst2
        exact htne2 hst2
    rw [heq]
    refine ⟨r2, List.mem_filter.mpr ⟨hr3, ?_⟩, hsrc2, htgt2, htyp2⟩
    simp only [Bool.and_eq_true, bne_iff_ne, ne_eq]
    constructor
    · rw [hsrc2]
      exact Ne.symm hne
    · rw [htgt2]
      exact htne2
  · intro rel hrelmem htgteq hsne1 hsne2
    have hmemT1 : rel ∈ mergeOutLoop tgt.rowid
        (st.synsetRelations.filter (fun r => r.src == src.rowid))
        st.synsetRelations := by
      apply mergeOutLoop_keep
      · exact hrelmem
      · intro s hs2 he
        have heqr := rel_eq_of_rowid_nodup hnodup
          (List.mem_of_mem_filter hs2) hrelmem he
        have hsq := hsnapO s hs2
        rw [heqr] at hsq
        exact hsne2 hsq
    have hmemI : rel ∈ (mergeOutLoop tgt.rowid
        (st.synsetRelations.filter (fun r => r.src == src.rowid))
        st.synsetRelations).filter (fun r => r.tgt == src.rowid) := by
      refine List.mem_filter.mpr ⟨hmemT1, ?_⟩
      simp [htgteq]
    obtain ⟨r2, hr2, hsrc2, htgt2, htyp2⟩ :=
      mergeInLoop_transfer tgt.rowid src.rowid hne _ _
        hsnapINodup hsnapI hsreI hinI rel hmemI hsne1
    rw [heq]
    refine ⟨r2, List.mem_filter.mpr ⟨hr2, ?_⟩, hsrc2, htgt2, htyp2⟩
    simp only [Bool.and_eq_true, bne_iff_ne, ne_eq]
    constructor
    · rw [hsrc2]
      exact hsne2
    · rw [htgt2]
      exact Ne.symm hne
  · intro hnl r hr
    rw [heq] at hr
    refine mergeInLoop_noloop tgt.rowid _ _ hsnapINodup
      (fun s hs2 r2 hr2 he => (hsreI s hs2 r2 hr2 he).1)
      (mergeOutLoop_noloop tgt.rowid _ _ hsnapONodup
        (fun s hs2 r2 hr2 he => (hsreO s hs2 r2 hr2 he).2.1) hnl)
      r (List.mem_of_mem_filter hr)
  · intro hd
    rw [heq]
    refine keyedDistinct_of_sub (fun x hx => List.mem_of_mem_filter hx) ?_
    refine mergeInLoop_distinct tgt.rowid _ _ htbl1 hsnapINodup
      (fun s hs2 r2 hr2 he => ⟨(hsreI s hs2 r2 hr2 he).1, (hsreI s hs2 r2 hr2 he).2.2⟩) ?_
    exact mergeOutLoop_distinct tgt.rowid _ _ hnodup hsnapONodup
      (fun s hs2 r2 hr2 he => ⟨(hsreO s hs2 r2 hr2 he).2.1, (hsreO s hs2 r2 hr2 he).2.2⟩) hd

/-- C4 witness: merging B into A on the chain leaves exactly the rows
A -hypernym-> C and C -hyponym-> A: the transfer reaches C, nothing
self-loops, and no duplicate triples exist. -/
theorem claim4_witness :
    (mergeSynsets c4Store "awn-00000002-n" "awn-00000001-n").2 = none ∧
    (∃ r ∈ (mergeSynsets c4Store "awn-00000002-n" "awn-00000001-n").1.synsetRelations,
      r.src = 2 ∧ r.tgt = 4 ∧ r.typ = "hypernym") ∧
    (∀ r ∈ (mergeSynsets c4Store "awn-00000002-n" "awn-00000001-n").1.synsetRelations,
      r.src ≠ r.tgt) ∧
    keyedDistinct (mergeSynsets c4Store "awn-00000002-n" "awn-00000001-n").1.synsetRelations ∧
    (mergeSynsets c4Store "awn-00000002-n" "awn-00000001-n").1.synsetRelations =
      [⟨6, 1, 2, 4, "hypernym", none⟩, ⟨8, 1, 4, 2, "hyponym", none⟩] := by
  have h := claim4_merge_relation_rewrite c4Store "awn-00000002-n" "awn-00000001-n"
    ⟨3, "awn-00000002-n", 1, none, "n", none⟩ ⟨2, "awn-00000001-n", 1, none, "n", none⟩
    (by decide) (by decide) (by decide) (by decide) (by decide)
  refine ⟨by decide, ?_, ?_, ?_, by decide⟩
  · exact h.2.1 ⟨6, 1, 3, 4, "hypernym", none⟩ (by decide) (by decide) (by decide) (by decide)
  · exact h.2.2.2.1 (by decide)
  · refine h.2.2.2.2 ?_
    unfold keyedDistinct
    decide

end WnEditor

